import Mathlib

/-!
# OpenClKernelFactory and SyclExecutionContextImpl

A shallow embedding of `cpp/daal/include/services/internal/sycl/execution_context_sycl.h`.

The two classes of that header are translated statement by statement.  Everything the header
only includes (the status carrier, the fixed-size hash table, the program and kernel wrappers,
the math executors, the buffer helpers, the assertion and status-check macros) is either taken
as a parameter of the embedded function or modelled in a definition whose doc comment says so.
-/

namespace daal.services.internal.sycl

/-! ## Status carrier -/

/-- Modelled from the spec: the error kinds of §7.  `services::Status` and its error ids are
declared outside the header; the header itself names only `ErrorExecutionContext` (line 107),
which is the spec's `NoActiveProgram`. -/
inductive ErrorID
  | ErrorExecutionContext
  | NotFound
  | CapacityExceeded
  | BuildError
  | KernelNotFound
  | BackendFault
  deriving DecidableEq, Repr

/-- Modelled from the spec: `services::Status`, a carrier that accumulates error codes (§6).
It is passed by reference into every operation; the embedding passes it in and returns it. -/
structure Status where
  errors : List ErrorID
  deriving DecidableEq, Repr

namespace Status

/-- A freshly constructed `services::Status`. -/
def success : Status := ⟨[]⟩

/-- Conversion of the carrier to `bool`, as tested by the status-check macros. -/
def ok (s : Status) : Bool := s.errors.isEmpty

/-- The statement `status |= id`. -/
def add (s : Status) (e : ErrorID) : Status := ⟨s.errors ++ [e]⟩

end Status

/-! ## Fixed-size hash table -/

/-- Modelled from the spec: `services::internal::HashTable<T, hashTableSize>` of
`services/internal/hash_table.h` (§4.1).  A mapping from string keys to artifacts with a fixed
capacity; the entries are kept in insertion order and a key is looked up from the front. -/
structure HashTable (T : Type) (hashTableSize : Nat) where
  entries : List (String × T)
  deriving DecidableEq, Repr

namespace HashTable

variable {T : Type} {n : Nat}

/-- Number of stored entries. -/
def size (h : HashTable T n) : Nat := h.entries.length

/-- Modelled from the spec: `contain(key, status)`, §4.1 `contains(key) -> bool`. -/
def contain (h : HashTable T n) (key : String) : Bool :=
  h.entries.any (fun e => e.1 == key)

/-- The artifact stored under a key, if any. -/
def lookup (h : HashTable T n) (key : String) : Option T :=
  (h.entries.find? (fun e => e.1 == key)).map Prod.snd

/-- Modelled from the spec: `get(key, status)`, §4.1 `get(key) -> artifact or failure`; an
absent key records `NotFound` and yields the empty pointer. -/
def get (h : HashTable T n) (key : String) (status : Status) : Option T × Status :=
  match h.lookup key with
  | some v => (some v, status)
  | none => (none, status.add ErrorID.NotFound)

/-- Modelled from the spec: `add(key, value, status)`, §4.1 `insert(key, artifact)`; fails with
`CapacityExceeded` when the table is full, never overwrites or removes an entry (the first
writer of a key wins). -/
def add (h : HashTable T n) (key : String) (value : T) (status : Status) :
    HashTable T n × Status :=
  if n ≤ h.size then (h, status.add ErrorID.CapacityExceeded)
  else if h.contain key then (h, status)
  else (⟨h.entries ++ [(key, value)]⟩, status)

end HashTable

/-! ## Device queue and backend outcomes -/

/-- Modelled from the spec: the part of `cl::sycl::queue` the header reads.  The queue is bound
to one device for its lifetime; `opencl_c_version` is the device's
`info::device::opencl_c_version` string, the other fields feed `InfoDevice`. -/
structure DeviceQueue where
  opencl_c_version : String
  is_cpu : Bool
  is_host : Bool
  max_work_group_size : Nat
  deriving DecidableEq, Repr

/-- The probe of lines 58 and 128:
`!_deviceQueue.get_device().get_info<opencl_c_version>().empty()`. -/
def isOpenCLBackendAvailable (deviceQueue : DeviceQueue) : Bool :=
  !deviceQueue.opencl_c_version.isEmpty

/-- The two compile and launch paths of the header. -/
inductive Backend
  | openCl
  | levelZero
  deriving DecidableEq, Repr

/-- Modelled from the spec: what the backend answers during one call of the factory.  Each of
the three backend requests is made at most once per call, so one answer per request describes
the call: the native program handle or the compile error, the interop context or its error,
the native kernel handle or the extraction error. -/
structure Runtime where
  programBuild : Except ErrorID Nat
  interopReset : Except ErrorID Nat
  kernelCreate : Except ErrorID Nat

/-- Modelled from the spec: `ExecutionTargetId`, the execution-target classification. -/
abbrev ExecutionTargetId := Nat

/-- Modelled from the spec: `ExecutionTargetIds::unspecified`. -/
def ExecutionTargetIds.unspecified : ExecutionTargetId := 0

/-! ## Program and kernel artifacts -/

/-- Modelled from the spec: `OpenClProgramRef` (§3 ProgramArtifact).  `addr` is the address of
the object, `backend` records which of the two constructors compiled it, `handle` is the
native program handle (`get()`). -/
structure OpenClProgramRef where
  addr : Nat
  backend : Backend
  name : String
  program : String
  options : String
  handle : Option Nat
  deriving DecidableEq, Repr

/-- The accessor `getName()`. -/
def OpenClProgramRef.getName (p : OpenClProgramRef) : String := p.name

/-- Modelled from the spec: an object behind `KernelPtr` (§3 KernelArtifact).  `variant` tells
`OpenClKernelNative` (`Backend.openCl`) from `OpenClKernelLevelZero` (`Backend.levelZero`);
the other fields are the three constructor arguments and the address of the object. -/
structure Kernel where
  addr : Nat
  variant : Backend
  executionTarget : ExecutionTargetId
  programRef : OpenClProgramRef
  kernelName : String
  kernelRef : Nat
  deriving DecidableEq, Repr

/-- The smart pointer `KernelPtr`; `KernelPtr()` is `none`. -/
abbrev KernelPtr := Option Kernel

/-! ## OpenClKernelFactory -/

/-- The constant `SIZE_HASHTABLE_PROGRAM`. -/
def SIZE_HASHTABLE_PROGRAM : Nat := 1024

/-- The constant `SIZE_HASHTABLE_KERNEL`. -/
def SIZE_HASHTABLE_KERNEL : Nat := 4096

/-- The data members of `OpenClKernelFactory` (lines 157-168).  The raw pointer
`_currentProgramRef` is the pointee or `none` for `nullptr`; the interop context is `none`
while `getOpenClDeviceRef().get()` is `nullptr`. -/
structure OpenClKernelFactory where
  programHashTable : HashTable OpenClProgramRef SIZE_HASHTABLE_PROGRAM
  kernelHashTable : HashTable Kernel SIZE_HASHTABLE_KERNEL
  _currentProgramRef : Option OpenClProgramRef
  _levelZeroOpenClInteropContext : Option Nat
  _executionTarget : ExecutionTargetId
  _deviceQueue : DeviceQueue
  deriving DecidableEq, Repr

/-- The constructor of lines 43-45. -/
def OpenClKernelFactory.new (deviceQueue : DeviceQueue) : OpenClKernelFactory where
  programHashTable := ⟨[]⟩
  kernelHashTable := ⟨[]⟩
  _currentProgramRef := none
  _levelZeroOpenClInteropContext := none
  _executionTarget := ExecutionTargetIds.unspecified
  _deviceQueue := deviceQueue

/-- The factory together with the instrumentation the claims speak of: the address the next
`new` returns, the number of program compilations and of kernel extractions requested from
the backend so far. -/
structure Machine where
  factory : OpenClKernelFactory
  nextAddr : Nat
  compileCount : Nat
  extractCount : Nat
  deriving DecidableEq, Repr

/-- A freshly constructed factory on a device queue. -/
def Machine.init (deviceQueue : DeviceQueue) : Machine where
  factory := OpenClKernelFactory.new deviceQueue
  nextAddr := 0
  compileCount := 0
  extractCount := 0

/-- Modelled from the spec: `new OpenClProgramRef(..., name, program, options, status)` through
either constructor.  The object is allocated, the backend is asked to compile, and a compile
error is recorded in the status. -/
def newOpenClProgramRef (backend : Backend) (name program options : String) (rt : Runtime)
    (m : Machine) (status : Status) : OpenClProgramRef × Machine × Status :=
  let m1 : Machine := { m with nextAddr := m.nextAddr + 1, compileCount := m.compileCount + 1 }
  match rt.programBuild with
  | Except.ok h => (⟨m.nextAddr, backend, name, program, options, some h⟩, m1, status)
  | Except.error e => (⟨m.nextAddr, backend, name, program, options, none⟩, m1, status.add e)

/-- Modelled from the spec: `OpenClKernelRef(program, kernelName, status)` and
`OpenClKernelLevelZeroRef(kernelName, status)`: one kernel extraction requested from the
backend, its failure recorded in the status. -/
def newKernelRef (rt : Runtime) (m : Machine) (status : Status) : Nat × Machine × Status :=
  let m1 : Machine := { m with extractCount := m.extractCount + 1 }
  match rt.kernelCreate with
  | Except.ok h => (h, m1, status)
  | Except.error e => (0, m1, status.add e)

/-- Modelled from the spec: `_levelZeroOpenClInteropContext.reset(_deviceQueue, status)`. -/
def interopReset (rt : Runtime) (status : Status) : Option Nat × Status :=
  match rt.interopReset with
  | Except.ok c => (some c, status)
  | Except.error e => (none, status.add e)

/-- The tail shared by both branches of `build` after the program object is constructed
(lines 65-70 and 85-90): status check, insertion, status check, `_currentProgramRef`,
then line 100. -/
def buildInsert (target : ExecutionTargetId) (key : String) (programPtr : OpenClProgramRef)
    (m : Machine) (status : Status) : Machine × Status :=
  if !status.ok then (m, status)
  else
    let r := m.factory.programHashTable.add key programPtr status
    let m1 : Machine := { m with factory := { m.factory with programHashTable := r.1 } }
    if !r.2.ok then (m1, r.2)
    else
      ({ m1 with factory :=
          { m1.factory with _currentProgramRef := some programPtr, _executionTarget := target } },
        r.2)

/-- `OpenClKernelFactory::build` (lines 49-101), with `DAAL_DISABLE_LEVEL_ZERO` undefined.
`DAAL_CHECK_STATUS_RETURN_VOID_IF_FAIL(status)` is `if (!status) return;`. -/
def build (target : ExecutionTargetId) (name program options : String) (rt : Runtime)
    (m : Machine) (status : Status) : Machine × Status :=
  let key := name
  let res := m.factory.programHashTable.contain key
  if !status.ok then (m, status)
  else if !res then
    if isOpenCLBackendAvailable m.factory._deviceQueue then
      let p := newOpenClProgramRef Backend.openCl name program options rt m status
      buildInsert target key p.1 p.2.1 p.2.2
    else
      if m.factory._levelZeroOpenClInteropContext = none then
        let c := interopReset rt status
        let m1 : Machine :=
          { m with factory := { m.factory with _levelZeroOpenClInteropContext := c.1 } }
        if !c.2.ok then (m1, c.2)
        else
          let p := newOpenClProgramRef Backend.levelZero name program options rt m1 c.2
          buildInsert target key p.1 p.2.1 p.2.2
      else
        let p := newOpenClProgramRef Backend.levelZero name program options rt m status
        buildInsert target key p.1 p.2.1 p.2.2
  else
    let g := m.factory.programHashTable.get key status
    let m1 : Machine := { m with factory := { m.factory with _currentProgramRef := g.1 } }
    if !g.2.ok then (m1, g.2)
    else ({ m1 with factory := { m1.factory with _executionTarget := target } }, g.2)

/-- The tail shared by both branches of a kernel-cache miss (lines 135-137 and 144-146, then
149-152): status check, `kernel.reset(new ...)`, insertion, status check, return. -/
def getKernelInsert (variant : Backend) (key kernelName : String)
    (currentProgramRef : OpenClProgramRef) (kernelRef : Nat) (m : Machine) (status : Status) :
    Machine × Status × KernelPtr :=
  if !status.ok then (m, status, none)
  else
    let kernel : Kernel :=
      ⟨m.nextAddr, variant, m.factory._executionTarget, currentProgramRef, kernelName, kernelRef⟩
    let r := m.factory.kernelHashTable.add key kernel status
    let m1 : Machine :=
      { m with factory := { m.factory with kernelHashTable := r.1 }, nextAddr := m.nextAddr + 1 }
    if !r.2.ok then (m1, r.2, none)
    else (m1, r.2, some kernel)

/-- `OpenClKernelFactory::getKernel` (lines 103-154), with `DAAL_DISABLE_LEVEL_ZERO` undefined.
`DAAL_CHECK_STATUS_RETURN_IF_FAIL(status, KernelPtr())` is `if (!status) return KernelPtr();`. -/
def getKernel (kernelName : String) (rt : Runtime) (m : Machine) (status : Status) :
    Machine × Status × KernelPtr :=
  match m.factory._currentProgramRef with
  | none => (m, status.add ErrorID.ErrorExecutionContext, none)
  | some currentProgramRef =>
    let key := currentProgramRef.getName ++ kernelName
    let res := m.factory.kernelHashTable.contain key
    if !status.ok then (m, status, none)
    else if res then
      let g := m.factory.kernelHashTable.get key status
      if !g.2.ok then (m, g.2, none)
      else (m, g.2, g.1)
    else
      if isOpenCLBackendAvailable m.factory._deviceQueue then
        let k := newKernelRef rt m status
        getKernelInsert Backend.openCl key kernelName currentProgramRef k.1 k.2.1 k.2.2
      else
        let k := newKernelRef rt m status
        getKernelInsert Backend.levelZero key kernelName currentProgramRef k.1 k.2.1 k.2.2

/-! ## Call sequences -/

/-- One call of a public operation of the factory, with the status carrier the caller passes
in and the answers of the backend during the call. -/
inductive Call
  | build (target : ExecutionTargetId) (name program options : String) (rt : Runtime)
      (status : Status)
  | getKernel (kernelName : String) (rt : Runtime) (status : Status)

/-- The factory after one call. -/
def step (m : Machine) : Call → Machine
  | Call.build target name program options rt status =>
      (build target name program options rt m status).1
  | Call.getKernel kernelName rt status => (getKernel kernelName rt m status).1

/-- The factory after a sequence of calls. -/
def run (m : Machine) : List Call → Machine
  | [] => m
  | c :: cs => run (step m c) cs

/-- Whether a call is a `build` that reports success when issued in state `m`. -/
def buildSucceeds (m : Machine) : Call → Bool
  | Call.build target name program options rt status =>
      (build target name program options rt m status).2.ok
  | Call.getKernel _ _ _ => false

/-- Whether no `build` call of the sequence, issued from state `m` on, reports success. -/
def noBuildSucceeded (m : Machine) : List Call → Bool
  | [] => true
  | c :: cs => !buildSucceeds m c && noBuildSucceeded (step m c) cs

/-! ## Auxiliary definitions, the execution context and sample inputs -/

/-- What `add` can do to a table: nothing, or one new entry at the end under an absent key. -/
def HashTable.Grows {T : Type} {n : Nat} (h h' : HashTable T n) : Prop :=
  h' = h ∨ ∃ key v, h.contain key = false ∧ h'.entries = h.entries ++ [(key, v)]

/-- The factory after a successful compile-and-insert of `p` under `key`. -/
def withProgram (target : ExecutionTargetId) (key : String) (p : OpenClProgramRef)
    (f : OpenClKernelFactory) : OpenClKernelFactory :=
  { f with
    programHashTable := ⟨f.programHashTable.entries ++ [(key, p)]⟩
    _currentProgramRef := some p
    _executionTarget := target }

/-- The backend a program or kernel is created under on a given queue. -/
def backendOf (deviceQueue : DeviceQueue) : Backend :=
  if isOpenCLBackendAvailable deviceQueue then Backend.openCl else Backend.levelZero

/-- The outcome of a `build` call that fails: the caches, the current program, the recorded
target and the queue are as before. -/
def BuildFailed (m : Machine) (r : Machine × Status) : Prop :=
  r.2.ok = false
  ∧ r.1.factory.programHashTable = m.factory.programHashTable
  ∧ r.1.factory.kernelHashTable = m.factory.kernelHashTable
  ∧ r.1.factory._currentProgramRef = m.factory._currentProgramRef
  ∧ r.1.factory._executionTarget = m.factory._executionTarget
  ∧ r.1.factory._deviceQueue = m.factory._deviceQueue

/-- The outcome of a `build` call that finds the name cached. -/
def BuildCached (target : ExecutionTargetId) (name : String) (m : Machine) (status : Status)
    (r : Machine × Status) : Prop :=
  status.ok = true ∧ ∃ p, m.factory.programHashTable.lookup name = some p
    ∧ r = ({ m with factory :=
              { m.factory with _currentProgramRef := some p, _executionTarget := target } },
            status)

/-- The outcome of a `build` call that compiles and inserts a new program. -/
def BuildFresh (target : ExecutionTargetId) (name program options : String) (m : Machine)
    (status : Status) (r : Machine × Status) : Prop :=
  status.ok = true ∧ m.factory.programHashTable.contain name = false ∧ r.2 = status
    ∧ r.1.compileCount = m.compileCount + 1
    ∧ ∃ (h : Option Nat) (a : Nat) (ctx : Option Nat),
        r.1.factory = withProgram target name
          ⟨a, backendOf m.factory._deviceQueue, name, program, options, h⟩
          { m.factory with _levelZeroOpenClInteropContext := ctx }

/-- The factory after a successful extract-and-insert of `kernel` under `key`. -/
def withKernel (key : String) (kernel : Kernel) (f : OpenClKernelFactory) :
    OpenClKernelFactory :=
  { f with kernelHashTable := ⟨f.kernelHashTable.entries ++ [(key, kernel)]⟩ }

/-- The outcome of a `getKernel` call that fails: empty handle, factory as before. -/
def GetKernelFailed (m : Machine) (r : Machine × Status × KernelPtr) : Prop :=
  r.2.1.ok = false ∧ r.2.2 = none ∧ r.1.factory = m.factory

/-- The outcome of a `getKernel` call that finds the key cached. -/
def GetKernelHit (kernelName : String) (m : Machine) (status : Status)
    (r : Machine × Status × KernelPtr) : Prop :=
  status.ok = true ∧ ∃ p kernel, m.factory._currentProgramRef = some p
    ∧ m.factory.kernelHashTable.lookup (p.getName ++ kernelName) = some kernel
    ∧ r = (m, status, some kernel)

/-- The outcome of a `getKernel` call that extracts and inserts a new kernel. -/
def GetKernelFresh (kernelName : String) (m : Machine) (status : Status)
    (r : Machine × Status × KernelPtr) : Prop :=
  status.ok = true ∧ r.2.1 = status ∧ r.1.extractCount = m.extractCount + 1
    ∧ ∃ p kernelRef, m.factory._currentProgramRef = some p
      ∧ m.factory.kernelHashTable.contain (p.getName ++ kernelName) = false
      ∧ r.2.2 = some ⟨m.nextAddr, backendOf m.factory._deviceQueue, m.factory._executionTarget,
                      p, kernelName, kernelRef⟩
      ∧ r.1.factory = withKernel (p.getName ++ kernelName)
          ⟨m.nextAddr, backendOf m.factory._deviceQueue, m.factory._executionTarget,
            p, kernelName, kernelRef⟩ m.factory

/-- The backend invariant of a factory on queue `deviceQueue`: every cached program, the
current program, every cached kernel and the program each kernel refers to were created under
the backend the queue selects. -/
def BackendConsistent (deviceQueue : DeviceQueue) (m : Machine) : Prop :=
  m.factory._deviceQueue = deviceQueue
  ∧ (∀ e ∈ m.factory.programHashTable.entries, e.2.backend = backendOf deviceQueue)
  ∧ (∀ p, m.factory._currentProgramRef = some p → p.backend = backendOf deviceQueue)
  ∧ (∀ e ∈ m.factory.kernelHashTable.entries,
      e.2.variant = backendOf deviceQueue ∧ e.2.programRef.backend = backendOf deviceQueue)

/-- The target and the program name of a `build` call. -/
def Call.buildArgs : Call → Option (ExecutionTargetId × String)
  | Call.build target name _ _ _ _ => some (target, name)
  | Call.getKernel _ _ _ => none

/-- The target and the program name of the most recent `build` call of the sequence, issued
from state `m` on, that reported success; `acc` when there is none. -/
def lastSuccessfulBuild (m : Machine) (acc : Option (ExecutionTargetId × String)) :
    List Call → Option (ExecutionTargetId × String)
  | [] => acc
  | c :: cs => lastSuccessfulBuild (step m c) (if buildSucceeds m c then c.buildArgs else acc) cs

/-- The target passed to the `build` call of the sequence, issued from state `m` on, that
compiled the program named `name` and inserted it into the program cache. -/
def compiledFor (name : String) (m : Machine) : List Call → Option ExecutionTargetId
  | [] => none
  | c :: cs =>
    if !m.factory.programHashTable.contain name
        && (step m c).factory.programHashTable.contain name then
      c.buildArgs.map Prod.fst
    else compiledFor name (step m c) cs

/-- The bookkeeping invariant behind the recorded target: cached programs carry the name they
are cached under, and while a program is current the recorded target and the name of the
current program are those of the last successful `build`. -/
def Tracked (m : Machine) (last : Option (ExecutionTargetId × String)) : Prop :=
  (∀ e ∈ m.factory.programHashTable.entries, e.2.getName = e.1)
  ∧ (∀ p, m.factory._currentProgramRef = some p →
      last = some (m.factory._executionTarget, p.getName))

/-- Modelled from the spec: `TypeId`, the element type of a buffer. -/
inductive TypeId
  | int8 | int16 | int32 | int64
  | uint8 | uint16 | uint32 | uint64
  | float32 | float64
  deriving DecidableEq, Repr

/-- Modelled from the spec: `UniversalBuffer`, a device buffer tagged with its element type.
`any` names the memory it holds; the default-constructed `UniversalBuffer()` holds none and
has no element type. -/
structure UniversalBuffer where
  type : Option TypeId
  any : Option Nat
  deriving DecidableEq, Repr

/-- The default-constructed `UniversalBuffer()`. -/
def UniversalBuffer.empty : UniversalBuffer := ⟨none, none⟩

/-- Modelled from the spec: `math::Transpose`. -/
inductive Transpose
  | NoTrans | Trans
  deriving DecidableEq, Repr

/-- Modelled from the spec: `math::UpLo`. -/
inductive UpLo
  | Upper | Lower
  deriving DecidableEq, Repr

/-- Modelled from the spec: `double` scalars.  They are only handed on to the executors and
never inspected by the context, so the embedding carries them as integers. -/
abbrev Double := Int

/-- A request the context hands to a math executor or a buffer helper, with its arguments in
the order of the source. -/
inductive QueueOp
  | gemm (transa transb : Transpose) (m n k : Nat) (alpha : Double) (a_buffer : UniversalBuffer)
      (lda offsetA : Nat) (b_buffer : UniversalBuffer) (ldb offsetB : Nat) (beta : Double)
      (c_buffer : UniversalBuffer) (ldc offsetC : Nat)
  | syrk (upper_lower : UpLo) (trans : Transpose) (n k : Nat) (alpha : Double)
      (a_buffer : UniversalBuffer) (lda offsetA : Nat) (beta : Double)
      (c_buffer : UniversalBuffer) (ldc offsetC : Nat)
  | axpy (n : Nat) (a : Double) (x_buffer : UniversalBuffer) (incx : Int)
      (y_buffer : UniversalBuffer) (incy : Int)
  | potrf (uplo : UpLo) (n : Nat) (a_buffer : UniversalBuffer) (lda : Nat)
  | potrs (uplo : UpLo) (n ny : Nat) (a_buffer : UniversalBuffer) (lda : Nat)
      (b_buffer : UniversalBuffer) (ldb : Nat)
  | allocate (type : TypeId) (bufferSize : Nat)
  | bufferCopy (dest : UniversalBuffer) (desOffset : Nat) (src : UniversalBuffer)
      (srcOffset count : Nat)
  | arrayCopy (dest : UniversalBuffer) (desOffset : Nat) (src : Nat) (srcOffset count : Nat)
  | fill (dest : UniversalBuffer) (value : Double)
  deriving DecidableEq, Repr

/-- An exception thrown by a collaborator: a `cl::sycl::exception` or any other type. -/
inductive Exception
  | sycl (what : String)
  | other (what : String)
  deriving DecidableEq, Repr

/-- Modelled from the spec: the external collaborators of the context (§6): the math executors
and the buffer copier, array copier and filler, which receive the status carrier, leave it as
they will and may throw; and the buffer allocator, which returns a buffer or throws. -/
structure Executors where
  run : QueueOp → Status → Status × Option Exception
  allocate : TypeId → Nat → Except Exception UniversalBuffer

/-- How a call into the context ends: it returns to the caller, it stops at a failed
`DAAL_ASSERT`, or an exception propagates out of it. -/
inductive Completion (α : Type)
  | returned (value : α)
  | assertionFailed
  | escaped (e : Exception)
  deriving DecidableEq, Repr

/-- What a call into the context did: the requests that reached the collaborators, in order,
and how the call ended. -/
structure Outcome (α : Type) where
  submitted : List QueueOp
  completion : Completion α
  deriving DecidableEq, Repr

/-- Modelled from the spec: `convertSyclExceptionToStatus(e, status)`, which rewrites the
caught fault into the status carrier with a mapped error kind (§4.3). -/
def convertSyclExceptionToStatus (_what : String) (status : Status) : Status :=
  status.add ErrorID.BackendFault

/-- A request made outside any `try` block: whatever the collaborator throws propagates. -/
def submit (ex : Executors) (op : QueueOp) (status : Status) : Outcome Status :=
  match ex.run op status with
  | (s, none) => ⟨[op], Completion.returned s⟩
  | (_, some e) => ⟨[op], Completion.escaped e⟩

/-- A request made inside `try { ... } catch (cl::sycl::exception const & e)`, the handler
being `convertSyclExceptionToStatus(e, status)`. -/
def submitCaught (ex : Executors) (op : QueueOp) (status : Status) : Outcome Status :=
  match ex.run op status with
  | (s, none) => ⟨[op], Completion.returned s⟩
  | (s, some (Exception.sycl what)) =>
      ⟨[op], Completion.returned (convertSyclExceptionToStatus what s)⟩
  | (_, some (Exception.other what)) => ⟨[op], Completion.escaped (Exception.other what)⟩

/-- `SyclExecutionContextImpl::gemm` (lines 200-210).  Modelled from the spec: `DAAL_ASSERT`
is an assertion whose failure is fatal (§4.3, §7). -/
def gemm (ex : Executors) (transa transb : Transpose) (m n k : Nat) (alpha : Double)
    (a_buffer : UniversalBuffer) (lda offsetA : Nat) (b_buffer : UniversalBuffer)
    (ldb offsetB : Nat) (beta : Double) (c_buffer : UniversalBuffer) (ldc offsetC : Nat)
    (status : Status) : Outcome Status :=
  if a_buffer.type ≠ b_buffer.type then ⟨[], Completion.assertionFailed⟩
  else if b_buffer.type ≠ c_buffer.type then ⟨[], Completion.assertionFailed⟩
  else
    submit ex (QueueOp.gemm transa transb m n k alpha a_buffer lda offsetA b_buffer ldb offsetB
      beta c_buffer ldc offsetC) status

/-- `SyclExecutionContextImpl::syrk` (lines 212-218). -/
def syrk (ex : Executors) (upper_lower : UpLo) (trans : Transpose) (n k : Nat) (alpha : Double)
    (a_buffer : UniversalBuffer) (lda offsetA : Nat) (beta : Double)
    (c_buffer : UniversalBuffer) (ldc offsetC : Nat) (status : Status) : Outcome Status :=
  if a_buffer.type ≠ c_buffer.type then ⟨[], Completion.assertionFailed⟩
  else
    submit ex (QueueOp.syrk upper_lower trans n k alpha a_buffer lda offsetA beta c_buffer ldc
      offsetC) status

/-- `SyclExecutionContextImpl::axpy` (lines 220-226). -/
def axpy (ex : Executors) (n : Nat) (a : Double) (x_buffer : UniversalBuffer) (incx : Int)
    (y_buffer : UniversalBuffer) (incy : Int) (status : Status) : Outcome Status :=
  if x_buffer.type ≠ y_buffer.type then ⟨[], Completion.assertionFailed⟩
  else submit ex (QueueOp.axpy n a x_buffer incx y_buffer incy) status

/-- `SyclExecutionContextImpl::potrf` (lines 228-231). -/
def potrf (ex : Executors) (uplo : UpLo) (n : Nat) (a_buffer : UniversalBuffer) (lda : Nat)
    (status : Status) : Outcome Status :=
  submit ex (QueueOp.potrf uplo n a_buffer lda) status

/-- `SyclExecutionContextImpl::potrs` (lines 233-238). -/
def potrs (ex : Executors) (uplo : UpLo) (n ny : Nat) (a_buffer : UniversalBuffer) (lda : Nat)
    (b_buffer : UniversalBuffer) (ldb : Nat) (status : Status) : Outcome Status :=
  if a_buffer.type ≠ b_buffer.type then ⟨[], Completion.assertionFailed⟩
  else submit ex (QueueOp.potrs uplo n ny a_buffer lda b_buffer ldb) status

/-- `SyclExecutionContextImpl::allocate` (lines 240-253). -/
def allocate (ex : Executors) (type : TypeId) (bufferSize : Nat) (status : Status) :
    Outcome (UniversalBuffer × Status) :=
  match ex.allocate type bufferSize with
  | Except.ok buffer => ⟨[QueueOp.allocate type bufferSize], Completion.returned (buffer, status)⟩
  | Except.error (Exception.sycl what) =>
      ⟨[QueueOp.allocate type bufferSize],
        Completion.returned (UniversalBuffer.empty, convertSyclExceptionToStatus what status)⟩
  | Except.error (Exception.other what) =>
      ⟨[QueueOp.allocate type bufferSize], Completion.escaped (Exception.other what)⟩

/-- `SyclExecutionContextImpl::copy`, device to device (lines 255-268). -/
def copy (ex : Executors) (dest : UniversalBuffer) (desOffset : Nat) (src : UniversalBuffer)
    (srcOffset count : Nat) (status : Status) : Outcome Status :=
  if dest.type ≠ src.type then ⟨[], Completion.assertionFailed⟩
  else submitCaught ex (QueueOp.bufferCopy dest desOffset src srcOffset count) status

/-- `SyclExecutionContextImpl::fill` (lines 270-281). -/
def fill (ex : Executors) (dest : UniversalBuffer) (value : Double) (status : Status) :
    Outcome Status :=
  submitCaught ex (QueueOp.fill dest value) status

/-- `SyclExecutionContextImpl::copy`, host to device (lines 287-298); `src` is the host
pointer. -/
def copyFromHost (ex : Executors) (dest : UniversalBuffer) (desOffset : Nat) (src : Nat)
    (srcOffset count : Nat) (status : Status) : Outcome Status :=
  submitCaught ex (QueueOp.arrayCopy dest desOffset src srcOffset count) status

/-- Modelled from the spec: `InfoDevice`, the device snapshot of §3. -/
structure InfoDevice where
  isCpu : Bool
  maxWorkGroupSize : Nat
  deriving DecidableEq, Repr

/-- The data members of `SyclExecutionContextImpl` (lines 301-304); the scheduler holds
nothing but the queue. -/
structure SyclExecutionContextImpl where
  _deviceQueue : DeviceQueue
  _kernelFactory : OpenClKernelFactory
  _infoDevice : InfoDevice
  deriving DecidableEq, Repr

/-- The constructor of lines 174-180. -/
def SyclExecutionContextImpl.new (deviceQueue : DeviceQueue) : SyclExecutionContextImpl where
  _deviceQueue := deviceQueue
  _kernelFactory := OpenClKernelFactory.new deviceQueue
  _infoDevice := ⟨deviceQueue.is_cpu || deviceQueue.is_host, deviceQueue.max_work_group_size⟩

namespace Sample

/-- A queue on a device that reports an OpenCL C version. -/
def openClQueue : DeviceQueue := ⟨"OpenCL C 2.0", false, false, 256⟩

/-- A queue on a device that reports no OpenCL C version. -/
def levelZeroQueue : DeviceQueue := ⟨"", false, false, 256⟩

/-- A backend that compiles and extracts without error. -/
def rtOk : Runtime := ⟨Except.ok 7, Except.ok 8, Except.ok 9⟩

/-- A backend that rejects the source and knows no kernel. -/
def rtFail : Runtime :=
  ⟨Except.error ErrorID.BuildError, Except.ok 8, Except.error ErrorID.KernelNotFound⟩

/-- A status carrier that already holds an error. -/
def failedStatus : Status := ⟨[ErrorID.BackendFault]⟩

/-- The factory after program `P1` was built for target 1. -/
def afterP1 : Machine :=
  run (Machine.init openClQueue) [Call.build 1 "P1" "src" "" rtOk Status.success]

/-- Collaborators that always succeed and leave the status alone. -/
def quiet : Executors := ⟨fun _ s => (s, none), fun t _ => Except.ok ⟨some t, some 1⟩⟩

/-- Collaborators whose every request throws a `cl::sycl::exception`. -/
def faulty : Executors :=
  ⟨fun _ s => (s, some (Exception.sycl "device lost")),
   fun _ _ => Except.error (Exception.sycl "out of device memory")⟩

/-- A buffer of 32-bit floats. -/
def floatBuffer : UniversalBuffer := ⟨some TypeId.float32, some 1⟩

/-- A buffer of 64-bit floats. -/
def doubleBuffer : UniversalBuffer := ⟨some TypeId.float64, some 2⟩

end Sample

/-! ## Theorems -/

theorem Status.ok_add (s : Status) (e : ErrorID) : (s.add e).ok = false := by
  cases s with
  | mk errors => cases errors <;> rfl

theorem HashTable.contain_eq_isSome {T : Type} {n : Nat} (h : HashTable T n) (key : String) :
    h.contain key = (h.lookup key).isSome := by
  cases h with
  | mk entries =>
    simp only [HashTable.contain, HashTable.lookup]
    induction entries with
    | nil => rfl
    | cons e es ih =>
      by_cases hk : (e.1 == key) = true
      · simp [List.find?, hk]
      · simp only [Bool.not_eq_true] at hk
        simpa [List.find?, hk] using ih

theorem HashTable.lookup_of_contain_false {T : Type} {n : Nat} (h : HashTable T n)
    (key : String) (hc : h.contain key = false) : h.lookup key = none := by
  rw [HashTable.contain_eq_isSome] at hc
  cases hf : h.lookup key with
  | none => rfl
  | some v => rw [hf] at hc; cases hc

theorem HashTable.lookup_append_of_some {T : Type} {n : Nat} (h : HashTable T n)
    (key : String) (v : T) (e : String × T) (hf : h.lookup key = some v) :
    (⟨h.entries ++ [e]⟩ : HashTable T n).lookup key = some v := by
  cases h with
  | mk entries =>
    simp only [HashTable.lookup] at hf ⊢
    cases hx : entries.find? (fun e => e.1 == key) with
    | none => rw [hx] at hf; cases hf
    | some x =>
      rw [hx] at hf
      rw [List.find?_append, hx]
      exact hf

theorem HashTable.lookup_append_self {T : Type} {n : Nat} (h : HashTable T n)
    (key : String) (v : T) (hc : h.contain key = false) :
    (⟨h.entries ++ [(key, v)]⟩ : HashTable T n).lookup key = some v := by
  have hn := HashTable.lookup_of_contain_false h key hc
  cases h with
  | mk entries =>
    simp only [HashTable.lookup] at hn ⊢
    cases hx : entries.find? (fun e => e.1 == key) with
    | some x => rw [hx] at hn; cases hn
    | none =>
      rw [List.find?_append, hx]
      simp [List.find?]

theorem HashTable.Grows.lookup {T : Type} {n : Nat} {h h' : HashTable T n}
    (g : HashTable.Grows h h') (key : String) (v : T) (hf : h.lookup key = some v) :
    h'.lookup key = some v := by
  rcases g with rfl | ⟨k, w, _, he⟩
  · exact hf
  · have := HashTable.lookup_append_of_some h key v (k, w) hf
    cases h' with
    | mk entries' =>
      simp only at he
      subst he
      exact this

theorem HashTable.add_failed {T : Type} {n : Nat} (h : HashTable T n) (key : String) (v : T)
    (s : Status) (hs : s.ok = true) (hf : (h.add key v s).2.ok = false) :
    (h.add key v s).1 = h := by
  unfold HashTable.add at hf ⊢
  by_cases hfull : n ≤ h.size
  · simp only [hfull, if_true]
  · simp only [hfull, if_false] at hf ⊢
    cases hc : h.contain key with
    | true => simp only [if_true]
    | false =>
      rw [hc] at hf
      simp only [Bool.false_eq_true, if_false] at hf
      rw [hs] at hf; cases hf

theorem HashTable.add_succeeded {T : Type} {n : Nat} (h : HashTable T n) (key : String)
    (v : T) (s : Status) (hc : h.contain key = false) (hok : (h.add key v s).2.ok = true) :
    (h.add key v s).1.lookup key = some v ∧ (h.add key v s).2 = s
      ∧ (h.add key v s).1.entries = h.entries ++ [(key, v)] := by
  unfold HashTable.add at hok ⊢
  by_cases hfull : n ≤ h.size
  · simp only [hfull, if_true] at hok
    rw [Status.ok_add] at hok; cases hok
  · have e : (if n ≤ h.size then (h, s.add ErrorID.CapacityExceeded)
        else if h.contain key = true then (h, s)
        else ((⟨h.entries ++ [(key, v)]⟩ : HashTable T n), s))
        = ((⟨h.entries ++ [(key, v)]⟩ : HashTable T n), s) := by
      simp only [hfull, if_false, hc, Bool.false_eq_true]
    rw [e]
    exact ⟨HashTable.lookup_append_self h key v hc, rfl, rfl⟩

theorem HashTable.get_of_lookup {T : Type} {n : Nat} (h : HashTable T n) (key : String)
    (v : T) (s : Status) (hf : h.lookup key = some v) : h.get key s = (some v, s) := by
  simp [HashTable.get, hf]

theorem buildInsert_cases (target : ExecutionTargetId) (key : String) (p : OpenClProgramRef)
    (m : Machine) (status : Status) (hc : m.factory.programHashTable.contain key = false) :
    ((buildInsert target key p m status).2.ok = false ∧ (buildInsert target key p m status).1 = m)
    ∨ (status.ok = true ∧ (buildInsert target key p m status).2 = status
        ∧ (buildInsert target key p m status).1
            = { m with factory := withProgram target key p m.factory }) := by
  unfold buildInsert
  rcases Bool.eq_false_or_eq_true status.ok with hs | hs
  swap
  · left; simp [hs]
  · simp only [hs, Bool.not_true, Bool.false_eq_true, if_false]
    rcases Bool.eq_false_or_eq_true (m.factory.programHashTable.add key p status).2.ok
      with ha | ha
    swap
    · left
      have e := HashTable.add_failed _ key p status hs ha
      simp [ha, e]
    · right
      obtain ⟨_, e2, e3⟩ := HashTable.add_succeeded _ key p status hc ha
      refine ⟨trivial, ?_, ?_⟩
      · simp [ha, e2, hs]
      · have e1 : (m.factory.programHashTable.add key p status).1
            = ⟨m.factory.programHashTable.entries ++ [(key, p)]⟩ := by
          cases hh : (m.factory.programHashTable.add key p status).1 with
          | mk entries => rw [hh] at e3; simp only at e3; rw [e3]
        simp [ha, e1, hs, withProgram]

theorem newOpenClProgramRef_fst (backend : Backend) (name program options : String)
    (rt : Runtime) (m : Machine) (status : Status) :
    ∃ h, (newOpenClProgramRef backend name program options rt m status).1
      = ⟨m.nextAddr, backend, name, program, options, h⟩ := by
  unfold newOpenClProgramRef
  cases rt.programBuild with
  | ok h => exact ⟨some h, rfl⟩
  | error e => exact ⟨none, rfl⟩

theorem newOpenClProgramRef_snd (backend : Backend) (name program options : String)
    (rt : Runtime) (m : Machine) (status : Status) :
    (newOpenClProgramRef backend name program options rt m status).2.1
      = { m with nextAddr := m.nextAddr + 1, compileCount := m.compileCount + 1 }
    ∧ ((newOpenClProgramRef backend name program options rt m status).2.2 = status
        ∨ (newOpenClProgramRef backend name program options rt m status).2.2.ok = false) := by
  unfold newOpenClProgramRef
  cases rt.programBuild with
  | ok h => exact ⟨rfl, Or.inl rfl⟩
  | error e => exact ⟨rfl, Or.inr (Status.ok_add _ _)⟩

/-- Compile-and-insert from a state whose factory differs from `m.factory` at most in the
interop context. -/
theorem build_fresh_from (target : ExecutionTargetId) (name program options : String)
    (rt : Runtime) (m m0 : Machine) (status : Status) (ctx : Option Nat)
    (b : Backend) (hb : b = backendOf m.factory._deviceQueue)
    (hm : m0 = { m with factory := { m.factory with _levelZeroOpenClInteropContext := ctx } })
    (hs : status.ok = true) (hc : m.factory.programHashTable.contain name = false) :
    BuildFailed m (buildInsert target name
        (newOpenClProgramRef b name program options rt m0 status).1
        (newOpenClProgramRef b name program options rt m0 status).2.1
        (newOpenClProgramRef b name program options rt m0 status).2.2)
    ∨ BuildFresh target name program options m status (buildInsert target name
        (newOpenClProgramRef b name program options rt m0 status).1
        (newOpenClProgramRef b name program options rt m0 status).2.1
        (newOpenClProgramRef b name program options rt m0 status).2.2) := by
  subst hm hb
  obtain ⟨h, e1⟩ := newOpenClProgramRef_fst (backendOf m.factory._deviceQueue) name program
    options rt { m with factory := { m.factory with _levelZeroOpenClInteropContext := ctx } }
    status
  obtain ⟨e2, e3⟩ := newOpenClProgramRef_snd (backendOf m.factory._deviceQueue) name program
    options rt { m with factory := { m.factory with _levelZeroOpenClInteropContext := ctx } }
    status
  generalize newOpenClProgramRef (backendOf m.factory._deviceQueue) name program
    options rt { m with factory := { m.factory with _levelZeroOpenClInteropContext := ctx } }
    status = r at e1 e2 e3 ⊢
  obtain ⟨p, m1, s1⟩ := r
  simp only at e1 e2 e3 ⊢
  subst e1 e2
  rcases buildInsert_cases target name
      ⟨m.nextAddr, backendOf m.factory._deviceQueue, name, program, options, h⟩
      { factory := { m.factory with _levelZeroOpenClInteropContext := ctx },
        nextAddr := m.nextAddr + 1, compileCount := m.compileCount + 1,
        extractCount := m.extractCount } s1 hc with ⟨f1, f2⟩ | ⟨g1, g2, g3⟩
  · left
    rw [BuildFailed, f2]
    exact ⟨f1, rfl, rfl, rfl, rfl, rfl⟩
  · right
    have e4 : s1 = status := by
      rcases e3 with e3 | e3
      · exact e3
      · rw [e3] at g1; cases g1
    subst e4
    refine ⟨hs, hc, g2, ?_, h, m.nextAddr, ctx, ?_⟩
    · rw [g3]
    · rw [g3]

theorem build_cases (target : ExecutionTargetId) (name program options : String)
    (rt : Runtime) (m : Machine) (status : Status) :
    BuildFailed m (build target name program options rt m status)
    ∨ BuildCached target name m status (build target name program options rt m status)
    ∨ BuildFresh target name program options m status
        (build target name program options rt m status) := by
  unfold build
  cases hs : status.ok with
  | false => left; simp [BuildFailed, hs]
  | true =>
    simp only [Bool.not_true, Bool.false_eq_true, if_false]
    cases hc : m.factory.programHashTable.contain name with
    | true =>
      right; left
      have hsome := hc
      rw [HashTable.contain_eq_isSome] at hsome
      cases hf : m.factory.programHashTable.lookup name with
      | none => rw [hf] at hsome; cases hsome
      | some p =>
        refine ⟨hs, p, hf, ?_⟩
        simp [HashTable.get_of_lookup _ name p status hf, hs]
    | false =>
      simp only [Bool.not_false, if_true]
      have key : ∀ (m0 : Machine) (ctx : Option Nat) (b : Backend),
          b = backendOf m.factory._deviceQueue →
          m0 = { m with factory := { m.factory with _levelZeroOpenClInteropContext := ctx } } →
          BuildFailed m (buildInsert target name
              (newOpenClProgramRef b name program options rt m0 status).1
              (newOpenClProgramRef b name program options rt m0 status).2.1
              (newOpenClProgramRef b name program options rt m0 status).2.2)
          ∨ BuildCached target name m status (buildInsert target name
              (newOpenClProgramRef b name program options rt m0 status).1
              (newOpenClProgramRef b name program options rt m0 status).2.1
              (newOpenClProgramRef b name program options rt m0 status).2.2)
          ∨ BuildFresh target name program options m status (buildInsert target name
              (newOpenClProgramRef b name program options rt m0 status).1
              (newOpenClProgramRef b name program options rt m0 status).2.1
              (newOpenClProgramRef b name program options rt m0 status).2.2) := by
        intro m0 ctx b hb hm
        rcases build_fresh_from target name program options rt m m0 status ctx b hb hm hs hc
          with h | h
        · exact Or.inl h
        · exact Or.inr (Or.inr h)
      cases hp : isOpenCLBackendAvailable m.factory._deviceQueue with
      | true =>
        simp only [if_true]
        exact key m m.factory._levelZeroOpenClInteropContext Backend.openCl
          (by simp [backendOf, hp]) rfl
      | false =>
        simp only [Bool.false_eq_true, if_false]
        have hb : Backend.levelZero = backendOf m.factory._deviceQueue := by
          simp [backendOf, hp]
        by_cases hi : m.factory._levelZeroOpenClInteropContext = none
        · simp only [hi, if_true]
          unfold interopReset
          cases rt.interopReset with
          | error e =>
            left
            simp [BuildFailed, Status.ok_add]
          | ok c =>
            simp only [hs, Bool.not_true, Bool.false_eq_true, if_false]
            exact key _ (some c) Backend.levelZero hb rfl
        · simp only [hi, if_false]
          exact key m m.factory._levelZeroOpenClInteropContext Backend.levelZero hb rfl

theorem getKernelInsert_cases (variant : Backend) (key kernelName : String)
    (p : OpenClProgramRef) (kernelRef : Nat) (m : Machine) (status : Status)
    (hc : m.factory.kernelHashTable.contain key = false) :
    ((getKernelInsert variant key kernelName p kernelRef m status).2.1.ok = false
      ∧ (getKernelInsert variant key kernelName p kernelRef m status).2.2 = none
      ∧ (getKernelInsert variant key kernelName p kernelRef m status).1.factory = m.factory)
    ∨ (status.ok = true
      ∧ (getKernelInsert variant key kernelName p kernelRef m status).2.1 = status
      ∧ (getKernelInsert variant key kernelName p kernelRef m status).2.2
          = some ⟨m.nextAddr, variant, m.factory._executionTarget, p, kernelName, kernelRef⟩
      ∧ (getKernelInsert variant key kernelName p kernelRef m status).1.factory
          = withKernel key
              ⟨m.nextAddr, variant, m.factory._executionTarget, p, kernelName, kernelRef⟩
              m.factory
      ∧ (getKernelInsert variant key kernelName p kernelRef m status).1.extractCount
          = m.extractCount) := by
  unfold getKernelInsert
  rcases Bool.eq_false_or_eq_true status.ok with hs | hs
  swap
  · left; simp [hs]
  · simp only [hs, Bool.not_true, Bool.false_eq_true, if_false]
    rcases Bool.eq_false_or_eq_true (m.factory.kernelHashTable.add key
        ⟨m.nextAddr, variant, m.factory._executionTarget, p, kernelName, kernelRef⟩ status).2.ok
      with ha | ha
    swap
    · left
      have e := HashTable.add_failed _ key _ status hs ha
      simp [ha, e]
    · right
      obtain ⟨_, e2, e3⟩ := HashTable.add_succeeded _ key _ status hc ha
      have e1 : (m.factory.kernelHashTable.add key
          ⟨m.nextAddr, variant, m.factory._executionTarget, p, kernelName, kernelRef⟩ status).1
            = ⟨m.factory.kernelHashTable.entries ++ [(key,
                ⟨m.nextAddr, variant, m.factory._executionTarget, p, kernelName, kernelRef⟩)]⟩ := by
        cases hh : (m.factory.kernelHashTable.add key
          ⟨m.nextAddr, variant, m.factory._executionTarget, p, kernelName, kernelRef⟩ status).1 with
        | mk entries => rw [hh] at e3; simp only at e3; rw [e3]
      refine ⟨trivial, ?_, ?_, ?_, ?_⟩
      · simp [ha, e2, hs]
      · simp [ha, e2, hs]
      · simp [ha, e1, hs, withKernel]
      · simp [ha, hs]

theorem getKernel_cases (kernelName : String) (rt : Runtime) (m : Machine) (status : Status) :
    (m.factory._currentProgramRef = none
      ∧ getKernel kernelName rt m status = (m, status.add ErrorID.ErrorExecutionContext, none))
    ∨ (status.ok = false ∧ getKernel kernelName rt m status = (m, status, none))
    ∨ GetKernelHit kernelName m status (getKernel kernelName rt m status)
    ∨ GetKernelFailed m (getKernel kernelName rt m status)
    ∨ GetKernelFresh kernelName m status (getKernel kernelName rt m status) := by
  unfold getKernel
  cases hcur : m.factory._currentProgramRef with
  | none => left; exact ⟨rfl, rfl⟩
  | some p =>
    right
    simp only
    rcases Bool.eq_false_or_eq_true status.ok with hs | hs
    swap
    · left; simp [hs]
    · right
      simp only [hs, Bool.not_true, Bool.false_eq_true, if_false]
      rcases Bool.eq_false_or_eq_true (m.factory.kernelHashTable.contain (p.getName ++ kernelName))
        with hc | hc
      · left
        have hsome := hc
        rw [HashTable.contain_eq_isSome] at hsome
        cases hf : m.factory.kernelHashTable.lookup (p.getName ++ kernelName) with
        | none => rw [hf] at hsome; cases hsome
        | some kernel =>
          refine ⟨hs, p, kernel, hcur, hf, ?_⟩
          simp [hc, HashTable.get_of_lookup _ _ kernel status hf, hs]
      · right
        simp only [hc, Bool.false_eq_true, if_false]
        have key : ∀ (b : Backend), b = backendOf m.factory._deviceQueue →
            GetKernelFailed m (getKernelInsert b (p.getName ++ kernelName) kernelName p
              (newKernelRef rt m status).1 (newKernelRef rt m status).2.1
              (newKernelRef rt m status).2.2)
            ∨ GetKernelFresh kernelName m status
              (getKernelInsert b (p.getName ++ kernelName) kernelName p
              (newKernelRef rt m status).1 (newKernelRef rt m status).2.1
              (newKernelRef rt m status).2.2) := by
          intro b hb
          subst hb
          have e2 : (newKernelRef rt m status).2.1
              = { m with extractCount := m.extractCount + 1 } := by
            unfold newKernelRef; cases rt.kernelCreate <;> rfl
          have e3 : (newKernelRef rt m status).2.2 = status
              ∨ (newKernelRef rt m status).2.2.ok = false := by
            unfold newKernelRef
            cases rt.kernelCreate with
            | ok h => exact Or.inl rfl
            | error e => exact Or.inr (Status.ok_add _ _)
          generalize newKernelRef rt m status = r at e2 e3 ⊢
          obtain ⟨ref, m1, s1⟩ := r
          simp only at e2 e3 ⊢
          subst e2
          rcases getKernelInsert_cases (backendOf m.factory._deviceQueue)
              (p.getName ++ kernelName) kernelName p ref
              { m with extractCount := m.extractCount + 1 } s1 hc
            with ⟨f1, f2, f3⟩ | ⟨g1, g2, g3, g4, g5⟩
          · left; exact ⟨f1, f2, f3⟩
          · right
            have e4 : s1 = status := by
              rcases e3 with e3 | e3
              · exact e3
              · rw [e3] at g1; cases g1
            subst e4
            exact ⟨hs, g2, g5, p, ref, hcur, hc, g3, g4⟩
        cases hp : isOpenCLBackendAvailable m.factory._deviceQueue with
        | true =>
          simp only [if_true]
          exact key Backend.openCl (by simp [backendOf, hp])
        | false =>
          simp only [Bool.false_eq_true, if_false]
          exact key Backend.levelZero (by simp [backendOf, hp])

theorem run_induction (P : Machine → Prop) (hstep : ∀ m c, P m → P (step m c))
    (m : Machine) (h0 : P m) (cs : List Call) : P (run m cs) := by
  induction cs generalizing m with
  | nil => exact h0
  | cons c cs ih => exact ih (step m c) (hstep m c h0)

theorem build_ok_of_not_failed (target : ExecutionTargetId) (name program options : String)
    (rt : Runtime) (m : Machine) (status : Status)
    (h : BuildCached target name m status (build target name program options rt m status)
      ∨ BuildFresh target name program options m status
          (build target name program options rt m status)) :
    (build target name program options rt m status).2.ok = true := by
  rcases h with ⟨hs, p, _, e⟩ | ⟨hs, _, e, _⟩
  · rw [e]; exact hs
  · rw [e]; exact hs

theorem build_failed_of_not_ok (target : ExecutionTargetId) (name program options : String)
    (rt : Runtime) (m : Machine) (status : Status)
    (hf : (build target name program options rt m status).2.ok = false) :
    BuildFailed m (build target name program options rt m status) := by
  rcases build_cases target name program options rt m status with h | h
  · exact h
  · rw [build_ok_of_not_failed target name program options rt m status h] at hf
    cases hf

theorem step_current_none (m : Machine) (c : Call)
    (h0 : m.factory._currentProgramRef = none) (hb : buildSucceeds m c = false) :
    (step m c).factory._currentProgramRef = none := by
  cases c with
  | build target name program options rt status =>
    have hf := build_failed_of_not_ok target name program options rt m status hb
    obtain ⟨_, _, _, e, _⟩ := hf
    simp only [step]
    rw [e]; exact h0
  | getKernel kernelName rt status =>
    simp [step, getKernel, h0]

theorem run_current_none (m : Machine) (cs : List Call)
    (h0 : m.factory._currentProgramRef = none) (h : noBuildSucceeded m cs = true) :
    (run m cs).factory._currentProgramRef = none := by
  induction cs generalizing m with
  | nil => exact h0
  | cons c cs ih =>
    simp only [noBuildSucceeded, Bool.and_eq_true, Bool.not_eq_true'] at h
    exact ih (step m c) (step_current_none m c h0 h.1) h.2

theorem step_program_grows (m : Machine) (c : Call) :
    HashTable.Grows m.factory.programHashTable (step m c).factory.programHashTable
    ∧ ((step m c).factory.programHashTable = m.factory.programHashTable
      ∨ (step m c).factory.kernelHashTable = m.factory.kernelHashTable) := by
  cases c with
  | build target name program options rt status =>
    simp only [step]
    rcases build_cases target name program options rt m status with
      ⟨_, e, ek, _⟩ | ⟨_, p, _, e⟩ | ⟨_, hc, _, _, h, a, ctx, e⟩
    · rw [e]; exact ⟨Or.inl rfl, Or.inl rfl⟩
    · rw [e]; exact ⟨Or.inl rfl, Or.inl rfl⟩
    · rw [e]; exact ⟨Or.inr ⟨name, _, hc, rfl⟩, Or.inr rfl⟩
  | getKernel kernelName rt status =>
    simp only [step]
    rcases getKernel_cases kernelName rt m status with
      ⟨_, e⟩ | ⟨_, e⟩ | ⟨_, _, _, _, _, e⟩ | ⟨_, _, e⟩ | ⟨_, _, _, _, _, _, _, _, e⟩
    · rw [e]; exact ⟨Or.inl rfl, Or.inl rfl⟩
    · rw [e]; exact ⟨Or.inl rfl, Or.inl rfl⟩
    · rw [e]; exact ⟨Or.inl rfl, Or.inl rfl⟩
    · rw [e]; exact ⟨Or.inl rfl, Or.inl rfl⟩
    · rw [e]; exact ⟨Or.inl rfl, Or.inl rfl⟩

theorem step_kernel_grows (m : Machine) (c : Call) :
    HashTable.Grows m.factory.kernelHashTable (step m c).factory.kernelHashTable := by
  cases c with
  | build target name program options rt status =>
    simp only [step]
    rcases build_cases target name program options rt m status with
      ⟨_, _, e, _⟩ | ⟨_, p, _, e⟩ | ⟨_, hc, _, _, h, a, ctx, e⟩
    · rw [e]; exact Or.inl rfl
    · rw [e]; exact Or.inl rfl
    · rw [e]; exact Or.inl rfl
  | getKernel kernelName rt status =>
    simp only [step]
    rcases getKernel_cases kernelName rt m status with
      ⟨_, e⟩ | ⟨_, e⟩ | ⟨_, _, _, _, _, e⟩ | ⟨_, _, e⟩ | ⟨_, _, _, p, ref, _, hc, _, e⟩
    · rw [e]; exact Or.inl rfl
    · rw [e]; exact Or.inl rfl
    · rw [e]; exact Or.inl rfl
    · rw [e]; exact Or.inl rfl
    · rw [e]; exact Or.inr ⟨_, _, hc, rfl⟩

theorem run_kernel_lookup (m : Machine) (cs : List Call) (key : String) (kernel : Kernel)
    (h : m.factory.kernelHashTable.lookup key = some kernel) :
    (run m cs).factory.kernelHashTable.lookup key = some kernel :=
  run_induction (fun m1 => m1.factory.kernelHashTable.lookup key = some kernel)
    (fun m1 c h1 => (step_kernel_grows m1 c).lookup key kernel h1) m h cs

/-- C1. On a factory on which no `build` call has succeeded so far (whatever calls were made,
failed builds included), `getKernel` records `ErrorExecutionContext` in the status carrier,
returns the empty handle and leaves the factory, hence the kernel cache, as it was. -/
theorem getKernel_before_successful_build (deviceQueue : DeviceQueue) (cs : List Call)
    (kernelName : String) (rt : Runtime) (status : Status)
    (h : noBuildSucceeded (Machine.init deviceQueue) cs = true) :
    getKernel kernelName rt (run (Machine.init deviceQueue) cs) status
      = (run (Machine.init deviceQueue) cs, status.add ErrorID.ErrorExecutionContext, none)
    ∧ (status.add ErrorID.ErrorExecutionContext).ok = false := by
  have hn := run_current_none (Machine.init deviceQueue) cs rfl h
  refine ⟨?_, Status.ok_add _ _⟩
  simp [getKernel, hn]

theorem getKernel_before_successful_build_witness :
    noBuildSucceeded (Machine.init Sample.openClQueue)
        [Call.build 1 "P1" "src" "" Sample.rtFail Status.success,
         Call.getKernel "k1" Sample.rtOk Status.success] = true
    ∧ (getKernel "k1" Sample.rtOk
        (run (Machine.init Sample.openClQueue)
          [Call.build 1 "P1" "src" "" Sample.rtFail Status.success,
           Call.getKernel "k1" Sample.rtOk Status.success]) Status.success
      = (run (Machine.init Sample.openClQueue)
          [Call.build 1 "P1" "src" "" Sample.rtFail Status.success,
           Call.getKernel "k1" Sample.rtOk Status.success],
         Status.success.add ErrorID.ErrorExecutionContext, none)
      ∧ (Status.success.add ErrorID.ErrorExecutionContext).ok = false) :=
  ⟨by decide,
   getKernel_before_successful_build Sample.openClQueue
     [Call.build 1 "P1" "src" "" Sample.rtFail Status.success,
      Call.getKernel "k1" Sample.rtOk Status.success] "k1" Sample.rtOk Status.success
     (by decide)⟩

/-- C2. In any factory state whose program cache contains the name, `build` called with a
non-failed status carrier compiles nothing, leaves the program cache (and the kernel cache)
exactly as it was, makes the artifact cached under the name the current program, records the
target and reports success with the carrier untouched. -/
theorem build_cached_is_noop (target : ExecutionTargetId) (name program options : String)
    (rt : Runtime) (m : Machine) (status : Status)
    (hc : m.factory.programHashTable.contain name = true) (hs : status.ok = true) :
    (build target name program options rt m status).1.compileCount = m.compileCount
    ∧ (build target name program options rt m status).1.factory.programHashTable
        = m.factory.programHashTable
    ∧ (build target name program options rt m status).1.factory.programHashTable.size
        = m.factory.programHashTable.size
    ∧ (build target name program options rt m status).1.factory.kernelHashTable
        = m.factory.kernelHashTable
    ∧ (∃ p, m.factory.programHashTable.lookup name = some p
        ∧ (build target name program options rt m status).1.factory._currentProgramRef = some p)
    ∧ (build target name program options rt m status).1.factory._executionTarget = target
    ∧ (build target name program options rt m status).2 = status
    ∧ (build target name program options rt m status).2.ok = true := by
  rcases build_cases target name program options rt m status with
    ⟨hf, _⟩ | ⟨_, p, hp, e⟩ | ⟨_, hc', _⟩
  · exfalso
    rw [HashTable.contain_eq_isSome] at hc
    cases hp : m.factory.programHashTable.lookup name with
    | none => rw [hp] at hc; cases hc
    | some p =>
      have e : build target name program options rt m status
          = ({ m with factory :=
                { m.factory with _currentProgramRef := some p, _executionTarget := target } },
              status) := by
        have hc2 : m.factory.programHashTable.contain name = true := by
          rw [HashTable.contain_eq_isSome, hp]; rfl
        simp [build, hs, hc2, HashTable.get_of_lookup _ name p status hp]
      rw [e] at hf
      rw [hs] at hf
      cases hf
  · rw [e]
    exact ⟨rfl, rfl, rfl, rfl, ⟨p, hp, rfl⟩, rfl, rfl, hs⟩
  · rw [hc] at hc'; cases hc'

theorem build_cached_is_noop_witness :
    Sample.afterP1.factory.programHashTable.contain "P1" = true
    ∧ Status.success.ok = true
    ∧ (build 2 "P1" "other source" "-O2" Sample.rtFail Sample.afterP1
        Status.success).1.compileCount = Sample.afterP1.compileCount
    ∧ (build 2 "P1" "other source" "-O2" Sample.rtFail Sample.afterP1
        Status.success).1.factory.programHashTable.size = 1 :=
  have h := build_cached_is_noop 2 "P1" "other source" "-O2" Sample.rtFail Sample.afterP1
    Status.success (by decide) (by decide)
  ⟨by decide, by decide, h.1, h.2.2.1.trans (by decide)⟩

/-- C7. A `build` call on an uncached name that reports failure leaves the program cache, the
current program, the recorded execution target and the kernel cache as they were. -/
theorem failed_build_leaves_state (target : ExecutionTargetId)
    (name program options : String) (rt : Runtime) (m : Machine) (status : Status)
    (hc : m.factory.programHashTable.contain name = false)
    (hf : (build target name program options rt m status).2.ok = false) :
    (build target name program options rt m status).1.factory.programHashTable
        = m.factory.programHashTable
    ∧ (build target name program options rt m status).1.factory.programHashTable.contain name
        = false
    ∧ (build target name program options rt m status).1.factory._currentProgramRef
        = m.factory._currentProgramRef
    ∧ (build target name program options rt m status).1.factory._executionTarget
        = m.factory._executionTarget
    ∧ (build target name program options rt m status).1.factory.kernelHashTable
        = m.factory.kernelHashTable := by
  obtain ⟨_, e1, e2, e3, e4, _⟩ :=
    build_failed_of_not_ok target name program options rt m status hf
  exact ⟨e1, by rw [e1]; exact hc, e3, e4, e2⟩

theorem failed_build_leaves_state_witness :
    Sample.afterP1.factory.programHashTable.contain "P2" = false
    ∧ (build 2 "P2" "bad source" "" Sample.rtFail Sample.afterP1 Status.success).2.ok = false
    ∧ (build 2 "P2" "bad source" "" Sample.rtFail Sample.afterP1
        Status.success).1.factory.programHashTable = Sample.afterP1.factory.programHashTable :=
  ⟨by decide, by decide,
   (failed_build_leaves_state 2 "P2" "bad source" "" Sample.rtFail Sample.afterP1
     Status.success (by decide) (by decide)).1⟩

/-- C8. Whatever the call (`build` or `getKernel`, successful or not) and whatever the state,
every key present in the program cache or in the kernel cache before the call is present after
it with the same artifact, and the call changes nothing in the caches or appends exactly one
entry to exactly one of them, under a key that was absent before. -/
theorem cache_entries_never_overwritten (m : Machine) (c : Call) :
    (∀ key p, m.factory.programHashTable.lookup key = some p →
        (step m c).factory.programHashTable.contain key = true
        ∧ (step m c).factory.programHashTable.lookup key = some p)
    ∧ (∀ key kernel, m.factory.kernelHashTable.lookup key = some kernel →
        (step m c).factory.kernelHashTable.contain key = true
        ∧ (step m c).factory.kernelHashTable.lookup key = some kernel)
    ∧ (((step m c).factory.programHashTable = m.factory.programHashTable
          ∧ (step m c).factory.kernelHashTable = m.factory.kernelHashTable)
      ∨ ((step m c).factory.kernelHashTable = m.factory.kernelHashTable
          ∧ ∃ key p, m.factory.programHashTable.contain key = false
            ∧ (step m c).factory.programHashTable.entries
                = m.factory.programHashTable.entries ++ [(key, p)])
      ∨ ((step m c).factory.programHashTable = m.factory.programHashTable
          ∧ ∃ key kernel, m.factory.kernelHashTable.contain key = false
            ∧ (step m c).factory.kernelHashTable.entries
                = m.factory.kernelHashTable.entries ++ [(key, kernel)])) := by
  obtain ⟨gp, hpk⟩ := step_program_grows m c
  have gk := step_kernel_grows m c
  refine ⟨?_, ?_, ?_⟩
  · intro key p h
    have h' := gp.lookup key p h
    exact ⟨by rw [HashTable.contain_eq_isSome, h']; rfl, h'⟩
  · intro key kernel h
    have h' := gk.lookup key kernel h
    exact ⟨by rw [HashTable.contain_eq_isSome, h']; rfl, h'⟩
  · rcases gp with ep | ⟨key, p, hc, he⟩
    · rcases gk with ek | ⟨key, kernel, hc, he⟩
      · exact Or.inl ⟨ep, ek⟩
      · exact Or.inr (Or.inr ⟨ep, key, kernel, hc, he⟩)
    · rcases hpk with ep | ek
      · exfalso
        rw [ep] at he
        have := congrArg List.length he
        simp at this
      · exact Or.inr (Or.inl ⟨ek, key, p, hc, he⟩)

theorem cache_entries_never_overwritten_witness :
    Sample.afterP1.factory.programHashTable.lookup "P1"
        = some ⟨0, Backend.openCl, "P1", "src", "", some 7⟩
    ∧ (step Sample.afterP1
        (Call.build 2 "P2" "src2" "" Sample.rtOk Status.success)).factory.programHashTable.lookup
          "P1" = some ⟨0, Backend.openCl, "P1", "src", "", some 7⟩
    ∧ (step Sample.afterP1
        (Call.build 2 "P2" "src2" "" Sample.rtOk Status.success)).factory.programHashTable.size
          = 2 :=
  ⟨by decide,
   ((cache_entries_never_overwritten Sample.afterP1
      (Call.build 2 "P2" "src2" "" Sample.rtOk Status.success)).1 "P1"
      ⟨0, Backend.openCl, "P1", "src", "", some 7⟩ (by decide)).2,
   by decide⟩

theorem getKernel_returns_cached (kernelName : String) (rt : Runtime) (m : Machine)
    (status : Status) (p : OpenClProgramRef) (kernel : Kernel)
    (hcur : m.factory._currentProgramRef = some p)
    (hf : m.factory.kernelHashTable.lookup (p.getName ++ kernelName) = some kernel)
    (hs : status.ok = true) :
    getKernel kernelName rt m status = (m, status, some kernel) := by
  have hc : m.factory.kernelHashTable.contain (p.getName ++ kernelName) = true := by
    rw [HashTable.contain_eq_isSome, hf]; rfl
  simp [getKernel, hcur, hs, hc, HashTable.get_of_lookup _ _ kernel status hf]

theorem getKernel_some_cached (kernelName : String) (rt : Runtime) (m : Machine)
    (status : Status) (p : OpenClProgramRef) (kernel : Kernel)
    (hcur : m.factory._currentProgramRef = some p)
    (h : (getKernel kernelName rt m status).2.2 = some kernel) :
    (getKernel kernelName rt m status).1.factory.kernelHashTable.lookup
        (p.getName ++ kernelName) = some kernel
    ∧ (getKernel kernelName rt m status).2.1.ok = true := by
  rcases getKernel_cases kernelName rt m status with
    ⟨_, e⟩ | ⟨_, e⟩ | ⟨hs, p', k', hc', hf, e⟩ | ⟨_, e, _⟩ | ⟨hs, es, _, p', ref, hc', hn, ek, ef⟩
  · rw [e] at h; cases h
  · rw [e] at h; cases h
  · rw [hcur] at hc'
    cases hc'
    rw [e] at h ⊢
    simp only [Option.some.injEq] at h
    subst h
    exact ⟨hf, hs⟩
  · rw [e] at h; cases h
  · rw [hcur] at hc'
    cases hc'
    rw [ek] at h
    simp only [Option.some.injEq] at h
    subst h
    rw [ef, es]
    exact ⟨HashTable.lookup_append_self _ _ _ hn, hs⟩

/-- C3, as amended.  If `getKernel(k)` returns a handle while `p` is the current program, then
after any sequence of `build` and `getKernel` calls, a `getKernel(k)` issued with a non-failed
status carrier while `p` is the current program returns that very handle, extracts no kernel,
and leaves the factory, hence the kernel cache and its size, as it was. -/
theorem getKernel_twice_same_handle (m : Machine) (kernelName : String) (rt : Runtime)
    (status : Status) (p : OpenClProgramRef) (kernel : Kernel) (cs : List Call)
    (rt2 : Runtime) (status2 : Status)
    (hcur : m.factory._currentProgramRef = some p)
    (h1 : (getKernel kernelName rt m status).2.2 = some kernel)
    (hcur2 : (run (getKernel kernelName rt m status).1 cs).factory._currentProgramRef = some p)
    (hs2 : status2.ok = true) :
    (getKernel kernelName rt2 (run (getKernel kernelName rt m status).1 cs) status2).2.2
        = some kernel
    ∧ (getKernel kernelName rt2 (run (getKernel kernelName rt m status).1 cs) status2).2.1
        = status2
    ∧ (getKernel kernelName rt2 (run (getKernel kernelName rt m status).1 cs) status2).1
        = run (getKernel kernelName rt m status).1 cs
    ∧ (getKernel kernelName rt2
          (run (getKernel kernelName rt m status).1 cs) status2).1.extractCount
        = (run (getKernel kernelName rt m status).1 cs).extractCount
    ∧ (getKernel kernelName rt2
          (run (getKernel kernelName rt m status).1 cs) status2).1.factory.kernelHashTable.size
        = (run (getKernel kernelName rt m status).1 cs).factory.kernelHashTable.size := by
  have hf := (getKernel_some_cached kernelName rt m status p kernel hcur h1).1
  have hf2 := run_kernel_lookup _ cs _ _ hf
  have e := getKernel_returns_cached kernelName rt2 _ status2 p kernel hcur2 hf2 hs2
  rw [e]
  exact ⟨rfl, rfl, rfl, rfl, rfl⟩

theorem getKernel_twice_same_handle_witness :
    Sample.afterP1.factory._currentProgramRef
        = some ⟨0, Backend.openCl, "P1", "src", "", some 7⟩
    ∧ (getKernel "k1" Sample.rtOk Sample.afterP1 Status.success).2.2
        = some ⟨1, Backend.openCl, 1, ⟨0, Backend.openCl, "P1", "src", "", some 7⟩, "k1", 9⟩
    ∧ (run (getKernel "k1" Sample.rtOk Sample.afterP1 Status.success).1
          [Call.build 2 "P2" "src2" "" Sample.rtOk Status.success,
           Call.getKernel "k2" Sample.rtOk Status.success,
           Call.build 3 "P1" "src" "" Sample.rtOk Status.success]).factory._currentProgramRef
        = some ⟨0, Backend.openCl, "P1", "src", "", some 7⟩
    ∧ Status.success.ok = true
    ∧ (getKernel "k1" Sample.rtFail
        (run (getKernel "k1" Sample.rtOk Sample.afterP1 Status.success).1
          [Call.build 2 "P2" "src2" "" Sample.rtOk Status.success,
           Call.getKernel "k2" Sample.rtOk Status.success,
           Call.build 3 "P1" "src" "" Sample.rtOk Status.success]) Status.success).2.2
        = some ⟨1, Backend.openCl, 1, ⟨0, Backend.openCl, "P1", "src", "", some 7⟩, "k1", 9⟩ :=
  ⟨by decide, by decide, by decide, by decide,
   (getKernel_twice_same_handle Sample.afterP1 "k1" Sample.rtOk Status.success
      ⟨0, Backend.openCl, "P1", "src", "", some 7⟩
      ⟨1, Backend.openCl, 1, ⟨0, Backend.openCl, "P1", "src", "", some 7⟩, "k1", 9⟩
      [Call.build 2 "P2" "src2" "" Sample.rtOk Status.success,
       Call.getKernel "k2" Sample.rtOk Status.success,
       Call.build 3 "P1" "src" "" Sample.rtOk Status.success]
      Sample.rtFail Status.success
      (by decide) (by decide) (by decide) (by decide)).1⟩

/-- C3 as stated fails: after a successful `getKernel("k1")` on the current program `P1`, a
later `getKernel("k1")` on the same current program whose status carrier already holds an
error returns the empty handle, not the cached one. -/
theorem getKernel_twice_failed_carrier :
    Sample.afterP1.factory._currentProgramRef
        = some ⟨0, Backend.openCl, "P1", "src", "", some 7⟩
    ∧ (getKernel "k1" Sample.rtOk Sample.afterP1 Status.success).2.2
        = some ⟨1, Backend.openCl, 1, ⟨0, Backend.openCl, "P1", "src", "", some 7⟩, "k1", 9⟩
    ∧ (getKernel "k1" Sample.rtOk Sample.afterP1 Status.success).2.1.ok = true
    ∧ (run (getKernel "k1" Sample.rtOk Sample.afterP1 Status.success).1
          []).factory._currentProgramRef
        = some ⟨0, Backend.openCl, "P1", "src", "", some 7⟩
    ∧ (getKernel "k1" Sample.rtOk
        (run (getKernel "k1" Sample.rtOk Sample.afterP1 Status.success).1 [])
        Sample.failedStatus).2.2 = none := by
  decide

theorem HashTable.mem_of_lookup {T : Type} {n : Nat} (h : HashTable T n) (key : String)
    (v : T) (hf : h.lookup key = some v) : ∃ e ∈ h.entries, e.1 = key ∧ e.2 = v := by
  simp only [HashTable.lookup, Option.map_eq_some'] at hf
  obtain ⟨e, he, hv⟩ := hf
  have hm := List.mem_of_find?_eq_some he
  have hk := List.find?_some he
  simp only [beq_iff_eq] at hk
  exact ⟨e, hm, hk, hv⟩

theorem backendConsistent_init (deviceQueue : DeviceQueue) :
    BackendConsistent deviceQueue (Machine.init deviceQueue) := by
  refine ⟨rfl, ?_, ?_, ?_⟩
  · intro e he; cases he
  · intro p hp; cases hp
  · intro e he; cases he

theorem backendConsistent_step (deviceQueue : DeviceQueue) (m : Machine) (c : Call)
    (h : BackendConsistent deviceQueue m) : BackendConsistent deviceQueue (step m c) := by
  obtain ⟨hq, hp, hcur, hk⟩ := h
  cases c with
  | build target name program options rt status =>
    simp only [step]
    rcases build_cases target name program options rt m status with
      ⟨_, e1, e2, e3, _, e5⟩ | ⟨_, p, hf, e⟩ | ⟨_, hc, _, _, h, a, ctx, e⟩
    · refine ⟨e5.trans hq, ?_, ?_, ?_⟩
      · rw [e1]; exact hp
      · rw [e3]; exact hcur
      · rw [e2]; exact hk
    · rw [e]
      refine ⟨hq, hp, ?_, hk⟩
      intro p' hp'
      simp only [Option.some.injEq] at hp'
      subst hp'
      obtain ⟨e, he, _, hv⟩ := HashTable.mem_of_lookup _ _ _ hf
      rw [← hv]; exact hp e he
    · unfold BackendConsistent
      rw [e]
      refine ⟨hq, ?_, ?_, hk⟩
      · intro e he
        simp only [withProgram, List.mem_append, List.mem_singleton] at he
        rcases he with he | he
        · exact hp e he
        · rw [he, ← hq]
      · intro p' hp'
        simp only [withProgram, Option.some.injEq] at hp'
        rw [← hp', ← hq]
  | getKernel kernelName rt status =>
    simp only [step]
    rcases getKernel_cases kernelName rt m status with
      ⟨_, e⟩ | ⟨_, e⟩ | ⟨_, _, _, _, _, e⟩ | ⟨_, _, e⟩ | ⟨_, _, _, p, ref, hc, _, _, e⟩
    · rw [e]; exact ⟨hq, hp, hcur, hk⟩
    · rw [e]; exact ⟨hq, hp, hcur, hk⟩
    · rw [e]; exact ⟨hq, hp, hcur, hk⟩
    · unfold BackendConsistent; rw [e]; exact ⟨hq, hp, hcur, hk⟩
    · unfold BackendConsistent
      rw [e]
      refine ⟨hq, hp, hcur, ?_⟩
      intro e he
      simp only [withKernel, List.mem_append, List.mem_singleton] at he
      rcases he with he | he
      · exact hk e he
      · rw [he, ← hq]
        exact ⟨rfl, by rw [hq]; exact hcur p hc⟩

theorem backendConsistent_run (deviceQueue : DeviceQueue) (cs : List Call) :
    BackendConsistent deviceQueue (run (Machine.init deviceQueue) cs) :=
  run_induction (BackendConsistent deviceQueue) (backendConsistent_step deviceQueue) _
    (backendConsistent_init deviceQueue) cs

/-- C4. In every state a factory reaches from its construction, every kernel in the kernel
cache and every handle `getKernel` returns has the backend variant of the program it refers
to, which is the variant the program was compiled under by `build`: the one selected by the
queue of the factory. -/
theorem backend_selection_stable (deviceQueue : DeviceQueue) (cs : List Call) :
    (∀ key kernel, (key, kernel) ∈ (run (Machine.init deviceQueue) cs).factory.kernelHashTable.entries →
        kernel.variant = kernel.programRef.backend
        ∧ kernel.programRef.backend = backendOf deviceQueue)
    ∧ (∀ key p, (key, p) ∈ (run (Machine.init deviceQueue) cs).factory.programHashTable.entries →
        p.backend = backendOf deviceQueue)
    ∧ (∀ kernelName rt status kernel,
        (getKernel kernelName rt (run (Machine.init deviceQueue) cs) status).2.2 = some kernel →
        kernel.variant = kernel.programRef.backend
        ∧ kernel.programRef.backend = backendOf deviceQueue) := by
  have inv := backendConsistent_run deviceQueue cs
  refine ⟨?_, ?_, ?_⟩
  · intro key kernel hm
    obtain ⟨h1, h2⟩ := inv.2.2.2 (key, kernel) hm
    exact ⟨h1.trans h2.symm, h2⟩
  · intro key p hm
    exact inv.2.1 (key, p) hm
  · intro kernelName rt status kernel hr
    have hmem : ∃ key, (key, kernel) ∈ (step (run (Machine.init deviceQueue) cs)
        (Call.getKernel kernelName rt status)).factory.kernelHashTable.entries := by
      simp only [step]
      cases hcur : (run (Machine.init deviceQueue) cs).factory._currentProgramRef with
      | none => simp [getKernel, hcur] at hr
      | some p =>
        obtain ⟨hf, _⟩ := getKernel_some_cached kernelName rt _ status p kernel hcur hr
        obtain ⟨e, he, _, hv⟩ := HashTable.mem_of_lookup _ _ _ hf
        exact ⟨e.1, by rw [← hv]; exact he⟩
    obtain ⟨key, hm⟩ := hmem
    have inv2 := backendConsistent_step deviceQueue _ (Call.getKernel kernelName rt status) inv
    obtain ⟨h1, h2⟩ := inv2.2.2.2 (key, kernel) hm
    exact ⟨h1.trans h2.symm, h2⟩

theorem backend_selection_stable_witness :
    (("P1k1", (⟨1, Backend.levelZero, 1, ⟨0, Backend.levelZero, "P1", "src", "", some 7⟩,
          "k1", 9⟩ : Kernel))
        ∈ (run (Machine.init Sample.levelZeroQueue)
            [Call.build 1 "P1" "src" "" Sample.rtOk Status.success,
             Call.getKernel "k1" Sample.rtOk Status.success]).factory.kernelHashTable.entries)
    ∧ (⟨1, Backend.levelZero, 1, ⟨0, Backend.levelZero, "P1", "src", "", some 7⟩,
          "k1", 9⟩ : Kernel).variant
        = (⟨1, Backend.levelZero, 1, ⟨0, Backend.levelZero, "P1", "src", "", some 7⟩,
          "k1", 9⟩ : Kernel).programRef.backend :=
  ⟨by decide,
   ((backend_selection_stable Sample.levelZeroQueue
      [Call.build 1 "P1" "src" "" Sample.rtOk Status.success,
       Call.getKernel "k1" Sample.rtOk Status.success]).1 "P1k1"
      ⟨1, Backend.levelZero, 1, ⟨0, Backend.levelZero, "P1", "src", "", some 7⟩, "k1", 9⟩
      (by decide)).1⟩

/-- C5 fails on the code.  The key is the program name followed by the kernel name with
nothing in between, so the distinct pairs ("ab", "c") and ("a", "bc") form the same key: after
`getKernel("c")` on program "ab", `getKernel("bc")` on the current program "a" extracts
nothing and returns the kernel that was created for program "ab" and kernel "c". -/
theorem getKernel_key_collision :
    (("ab", "c") : String × String) ≠ ("a", "bc")
    ∧ (run (Machine.init Sample.openClQueue)
          [Call.build 1 "ab" "src" "" Sample.rtOk Status.success]).factory._currentProgramRef
        = some ⟨0, Backend.openCl, "ab", "src", "", some 7⟩
    ∧ (getKernel "c" Sample.rtOk
          (run (Machine.init Sample.openClQueue)
            [Call.build 1 "ab" "src" "" Sample.rtOk Status.success]) Status.success).2.2
        = some ⟨1, Backend.openCl, 1, ⟨0, Backend.openCl, "ab", "src", "", some 7⟩, "c", 9⟩
    ∧ (run (Machine.init Sample.openClQueue)
          [Call.build 1 "ab" "src" "" Sample.rtOk Status.success,
           Call.getKernel "c" Sample.rtOk Status.success,
           Call.build 1 "a" "src2" "" Sample.rtOk Status.success]).factory._currentProgramRef
        = some ⟨2, Backend.openCl, "a", "src2", "", some 7⟩
    ∧ getKernel "bc" Sample.rtOk
          (run (Machine.init Sample.openClQueue)
            [Call.build 1 "ab" "src" "" Sample.rtOk Status.success,
             Call.getKernel "c" Sample.rtOk Status.success,
             Call.build 1 "a" "src2" "" Sample.rtOk Status.success]) Status.success
        = (run (Machine.init Sample.openClQueue)
            [Call.build 1 "ab" "src" "" Sample.rtOk Status.success,
             Call.getKernel "c" Sample.rtOk Status.success,
             Call.build 1 "a" "src2" "" Sample.rtOk Status.success],
           Status.success,
           some ⟨1, Backend.openCl, 1, ⟨0, Backend.openCl, "ab", "src", "", some 7⟩, "c", 9⟩) := by
  decide

theorem tracked_step (m : Machine) (last : Option (ExecutionTargetId × String)) (c : Call)
    (h : Tracked m last) :
    Tracked (step m c) (if buildSucceeds m c then c.buildArgs else last) := by
  obtain ⟨hj, hl⟩ := h
  cases c with
  | build target name program options rt status =>
    have hb : buildSucceeds m (Call.build target name program options rt status)
        = (build target name program options rt m status).2.ok := rfl
    simp only [step, hb, Call.buildArgs]
    rcases build_cases target name program options rt m status with
      ⟨hf, e1, _, e3, e4, _⟩ | ⟨hs, p, hf, e⟩ | ⟨hs, hc, es, _, h, a, ctx, e⟩
    · simp only [hf, Bool.false_eq_true, if_false]
      unfold Tracked
      rw [e1, e3, e4]
      exact ⟨hj, hl⟩
    · rw [e]
      simp only [hs, if_true]
      refine ⟨hj, ?_⟩
      intro p' hp'
      simp only [Option.some.injEq] at hp'
      subst hp'
      obtain ⟨e, he, hk, hv⟩ := HashTable.mem_of_lookup _ _ _ hf
      rw [← hv, hj e he, hk]
    · rw [es]
      simp only [hs, if_true]
      unfold Tracked
      rw [e]
      refine ⟨?_, ?_⟩
      · intro e he
        simp only [withProgram, List.mem_append, List.mem_singleton] at he
        rcases he with he | he
        · exact hj e he
        · rw [he]; rfl
      · intro p' hp'
        simp only [withProgram, Option.some.injEq] at hp'
        rw [← hp']; rfl
  | getKernel kernelName rt status =>
    have hb : buildSucceeds m (Call.getKernel kernelName rt status) = false := rfl
    simp only [step, hb, Bool.false_eq_true, if_false]
    rcases getKernel_cases kernelName rt m status with
      ⟨_, e⟩ | ⟨_, e⟩ | ⟨_, _, _, _, _, e⟩ | ⟨_, _, e⟩ | ⟨_, _, _, p, ref, hc, _, _, e⟩
    · rw [e]; exact ⟨hj, hl⟩
    · rw [e]; exact ⟨hj, hl⟩
    · rw [e]; exact ⟨hj, hl⟩
    · unfold Tracked; rw [e]; exact ⟨hj, hl⟩
    · unfold Tracked; rw [e]; exact ⟨hj, hl⟩

theorem tracked_init (deviceQueue : DeviceQueue) : Tracked (Machine.init deviceQueue) none := by
  refine ⟨?_, ?_⟩
  · intro e he; cases he
  · intro p hp; cases hp

theorem kernel_created_by_getKernel (m : Machine) (acc : Option (ExecutionTargetId × String))
    (cs : List Call) (key : String) (kernel : Kernel) (ht : Tracked m acc)
    (hm : (key, kernel) ∈ (run m cs).factory.kernelHashTable.entries) :
    (key, kernel) ∈ m.factory.kernelHashTable.entries
    ∨ ∃ pre kernelName rt status post,
        cs = pre ++ Call.getKernel kernelName rt status :: post
        ∧ (key, kernel) ∉ (run m pre).factory.kernelHashTable.entries
        ∧ (getKernel kernelName rt (run m pre) status).2.2 = some kernel
        ∧ (run m pre).factory._currentProgramRef = some kernel.programRef
        ∧ lastSuccessfulBuild m acc pre
            = some (kernel.executionTarget, kernel.programRef.getName) := by
  induction cs generalizing m acc with
  | nil => exact Or.inl hm
  | cons c cs ih =>
    rcases ih (step m c) _ (tracked_step m acc c ht) hm with h | ⟨pre, k, rt, st, post, h1, h2, h3, h4, h5⟩
    · by_cases hin : (key, kernel) ∈ m.factory.kernelHashTable.entries
      · exact Or.inl hin
      · right
        cases c with
        | build target name program options rt status =>
          exfalso
          simp only [step] at h
          rcases build_cases target name program options rt m status with
            ⟨_, _, e, _⟩ | ⟨_, p, _, e⟩ | ⟨_, hc, _, _, h', a, ctx, e⟩
          · rw [e] at h; exact hin h
          · rw [e] at h; exact hin h
          · rw [e] at h; exact hin h
        | getKernel kernelName rt status =>
          simp only [step] at h
          rcases getKernel_cases kernelName rt m status with
            ⟨_, e⟩ | ⟨_, e⟩ | ⟨_, _, _, _, _, e⟩ | ⟨_, _, e⟩ | ⟨_, _, _, p, ref, hc, hn, ek, e⟩
          · rw [e] at h; exact absurd h hin
          · rw [e] at h; exact absurd h hin
          · rw [e] at h; exact absurd h hin
          · rw [e] at h; exact absurd h hin
          · rw [e] at h
            simp only [withKernel, List.mem_append, List.mem_singleton] at h
            rcases h with h | h
            · exact absurd h hin
            · have hk : kernel = ⟨m.nextAddr, backendOf m.factory._deviceQueue,
                  m.factory._executionTarget, p, kernelName, ref⟩ := (Prod.mk.inj h).2
              refine ⟨[], kernelName, rt, status, cs, rfl, hin, ?_, ?_, ?_⟩
              · rw [hk]; exact ek
              · rw [hk]; exact hc
              · rw [hk]; exact ht.2 p hc
    · right
      exact ⟨c :: pre, k, rt, st, post, by rw [h1]; rfl, h2, h3, h4, h5⟩

/-- C6, as amended.  In every state a factory reaches from its construction, each kernel in
the kernel cache was created by a `getKernel` call of the history, for the program that was
current at that call, and its execution target is the target passed to the most recent
successful `build` call before that `getKernel` call, a `build` of the program the kernel
refers to. -/
theorem kernel_target_is_last_build_target (deviceQueue : DeviceQueue) (cs : List Call)
    (key : String) (kernel : Kernel)
    (hm : (key, kernel) ∈ (run (Machine.init deviceQueue) cs).factory.kernelHashTable.entries) :
    ∃ pre kernelName rt status post,
      cs = pre ++ Call.getKernel kernelName rt status :: post
      ∧ (key, kernel) ∉ (run (Machine.init deviceQueue) pre).factory.kernelHashTable.entries
      ∧ (getKernel kernelName rt (run (Machine.init deviceQueue) pre) status).2.2 = some kernel
      ∧ (run (Machine.init deviceQueue) pre).factory._currentProgramRef
          = some kernel.programRef
      ∧ lastSuccessfulBuild (Machine.init deviceQueue) none pre
          = some (kernel.executionTarget, kernel.programRef.getName) := by
  rcases kernel_created_by_getKernel (Machine.init deviceQueue) none cs key kernel
      (tracked_init deviceQueue) hm with h | h
  · cases h
  · exact h

theorem kernel_target_is_last_build_target_witness :
    (("P1k1", (⟨1, Backend.openCl, 2, ⟨0, Backend.openCl, "P1", "src", "", some 7⟩,
          "k1", 9⟩ : Kernel))
        ∈ (run (Machine.init Sample.openClQueue)
            [Call.build 1 "P1" "src" "" Sample.rtOk Status.success,
             Call.build 2 "P1" "src" "" Sample.rtOk Status.success,
             Call.getKernel "k1" Sample.rtOk Status.success]).factory.kernelHashTable.entries)
    ∧ ∃ pre kernelName rt status post,
      [Call.build 1 "P1" "src" "" Sample.rtOk Status.success,
       Call.build 2 "P1" "src" "" Sample.rtOk Status.success,
       Call.getKernel "k1" Sample.rtOk Status.success]
        = pre ++ Call.getKernel kernelName rt status :: post
      ∧ (("P1k1", (⟨1, Backend.openCl, 2, ⟨0, Backend.openCl, "P1", "src", "", some 7⟩,
            "k1", 9⟩ : Kernel))
          ∉ (run (Machine.init Sample.openClQueue) pre).factory.kernelHashTable.entries)
      ∧ (getKernel kernelName rt (run (Machine.init Sample.openClQueue) pre) status).2.2
          = some ⟨1, Backend.openCl, 2, ⟨0, Backend.openCl, "P1", "src", "", some 7⟩, "k1", 9⟩
      ∧ (run (Machine.init Sample.openClQueue) pre).factory._currentProgramRef
          = some ⟨0, Backend.openCl, "P1", "src", "", some 7⟩
      ∧ lastSuccessfulBuild (Machine.init Sample.openClQueue) none pre = some (2, "P1") :=
  ⟨by decide,
   kernel_target_is_last_build_target Sample.openClQueue
     [Call.build 1 "P1" "src" "" Sample.rtOk Status.success,
      Call.build 2 "P1" "src" "" Sample.rtOk Status.success,
      Call.getKernel "k1" Sample.rtOk Status.success] "P1k1"
     ⟨1, Backend.openCl, 2, ⟨0, Backend.openCl, "P1", "src", "", some 7⟩, "k1", 9⟩
     (by decide)⟩

/-- C6 as stated fails: program `P1` is compiled and inserted by a `build` call for target 1,
a second `build` of the cached name for target 2 only re-records the target, and the kernel
`getKernel("k1")` then creates for `P1` carries target 2, not the target 1 of the call that
compiled its program. -/
theorem kernel_target_not_compile_target :
    (("P1k1", (⟨1, Backend.openCl, 2, ⟨0, Backend.openCl, "P1", "src", "", some 7⟩,
          "k1", 9⟩ : Kernel))
        ∈ (run (Machine.init Sample.openClQueue)
            [Call.build 1 "P1" "src" "" Sample.rtOk Status.success,
             Call.build 2 "P1" "src" "" Sample.rtOk Status.success,
             Call.getKernel "k1" Sample.rtOk Status.success]).factory.kernelHashTable.entries)
    ∧ compiledFor "P1" (Machine.init Sample.openClQueue)
          [Call.build 1 "P1" "src" "" Sample.rtOk Status.success,
           Call.build 2 "P1" "src" "" Sample.rtOk Status.success,
           Call.getKernel "k1" Sample.rtOk Status.success] = some 1
    ∧ (⟨1, Backend.openCl, 2, ⟨0, Backend.openCl, "P1", "src", "", some 7⟩,
          "k1", 9⟩ : Kernel).executionTarget = 2
    ∧ (run (Machine.init Sample.openClQueue)
          [Call.build 1 "P1" "src" "" Sample.rtOk Status.success,
           Call.build 2 "P1" "src" "" Sample.rtOk Status.success]).compileCount = 1 := by
  decide

/-- C9. A `gemm` call whose three buffers do not all have the same element type (in
particular one where A and C differ), a `syrk`, `axpy` or `potrs` call whose two buffers
differ in element type, and a device-to-device `copy` whose destination and source differ in
element type stop at the failed assertion, whatever the collaborators would do: no request
reaches a math executor or the buffer copier. -/
theorem type_mismatch_is_fatal (ex : Executors) (status : Status) :
    (∀ transa transb m n k alpha a_buffer lda offsetA b_buffer ldb offsetB beta c_buffer ldc
        offsetC,
        (a_buffer.type ≠ b_buffer.type ∨ b_buffer.type ≠ c_buffer.type
          ∨ a_buffer.type ≠ c_buffer.type) →
        gemm ex transa transb m n k alpha a_buffer lda offsetA b_buffer ldb offsetB beta c_buffer
          ldc offsetC status = ⟨[], Completion.assertionFailed⟩)
    ∧ (∀ upper_lower trans n k alpha a_buffer lda offsetA beta c_buffer ldc offsetC,
        a_buffer.type ≠ c_buffer.type →
        syrk ex upper_lower trans n k alpha a_buffer lda offsetA beta c_buffer ldc offsetC status
          = ⟨[], Completion.assertionFailed⟩)
    ∧ (∀ n a x_buffer incx y_buffer incy,
        x_buffer.type ≠ y_buffer.type →
        axpy ex n a x_buffer incx y_buffer incy status = ⟨[], Completion.assertionFailed⟩)
    ∧ (∀ uplo n ny a_buffer lda b_buffer ldb,
        a_buffer.type ≠ b_buffer.type →
        potrs ex uplo n ny a_buffer lda b_buffer ldb status = ⟨[], Completion.assertionFailed⟩)
    ∧ (∀ dest desOffset src srcOffset count,
        dest.type ≠ src.type →
        copy ex dest desOffset src srcOffset count status = ⟨[], Completion.assertionFailed⟩) := by
  refine ⟨?_, ?_, ?_, ?_, ?_⟩
  · intro transa transb m n k alpha a_buffer lda offsetA b_buffer ldb offsetB beta c_buffer ldc
      offsetC h
    unfold gemm
    by_cases hab : a_buffer.type = b_buffer.type
    · by_cases hbc : b_buffer.type = c_buffer.type
      · exfalso
        rcases h with h | h | h
        · exact h hab
        · exact h hbc
        · exact h (hab.trans hbc)
      · simp [hab, hbc]
    · simp [hab]
  · intro upper_lower trans n k alpha a_buffer lda offsetA beta c_buffer ldc offsetC h
    simp [syrk, h]
  · intro n a x_buffer incx y_buffer incy h
    simp [axpy, h]
  · intro uplo n ny a_buffer lda b_buffer ldb h
    simp [potrs, h]
  · intro dest desOffset src srcOffset count h
    simp [copy, h]

theorem type_mismatch_is_fatal_witness :
    (Sample.floatBuffer.type ≠ Sample.floatBuffer.type
      ∨ Sample.floatBuffer.type ≠ Sample.doubleBuffer.type
      ∨ Sample.floatBuffer.type ≠ Sample.doubleBuffer.type)
    ∧ gemm Sample.quiet Transpose.NoTrans Transpose.Trans 2 2 2 1 Sample.floatBuffer 2 0
        Sample.floatBuffer 2 0 0 Sample.doubleBuffer 2 0 Status.success
        = ⟨[], Completion.assertionFailed⟩
    ∧ Sample.doubleBuffer.type ≠ Sample.floatBuffer.type
    ∧ copy Sample.quiet Sample.doubleBuffer 0 Sample.floatBuffer 0 4 Status.success
        = ⟨[], Completion.assertionFailed⟩ :=
  ⟨by decide,
   (type_mismatch_is_fatal Sample.quiet Status.success).1 Transpose.NoTrans Transpose.Trans
     2 2 2 1 Sample.floatBuffer 2 0 Sample.floatBuffer 2 0 0 Sample.doubleBuffer 2 0
     (by decide),
   by decide,
   (type_mismatch_is_fatal Sample.quiet Status.success).2.2.2.2 Sample.doubleBuffer 0
     Sample.floatBuffer 0 4 (by decide)⟩

/-- C10. When the allocator, the buffer copier, the array copier or the filler throws a
`cl::sycl::exception`, the call of `allocate`, of either `copy` overload (the device-to-device
one reaches the copier only when the element types agree) or of `fill` returns to the caller
with an error recorded in the status carrier, `allocate` returning the empty buffer; and when
the allocator throws nothing, `allocate` returns the allocator's buffer with the carrier
untouched. -/
theorem no_backend_fault_escapes (ex : Executors) (status : Status) :
    (∀ type bufferSize what, ex.allocate type bufferSize = Except.error (Exception.sycl what) →
        ∃ s, (allocate ex type bufferSize status).completion
            = Completion.returned (UniversalBuffer.empty, s) ∧ s.ok = false)
    ∧ (∀ type bufferSize buffer, ex.allocate type bufferSize = Except.ok buffer →
        (allocate ex type bufferSize status).completion = Completion.returned (buffer, status))
    ∧ (∀ dest desOffset src srcOffset count s what, dest.type = src.type →
        ex.run (QueueOp.bufferCopy dest desOffset src srcOffset count) status
          = (s, some (Exception.sycl what)) →
        ∃ s1, (copy ex dest desOffset src srcOffset count status).completion
            = Completion.returned s1 ∧ s1.ok = false)
    ∧ (∀ dest desOffset src srcOffset count s what,
        ex.run (QueueOp.arrayCopy dest desOffset src srcOffset count) status
          = (s, some (Exception.sycl what)) →
        ∃ s1, (copyFromHost ex dest desOffset src srcOffset count status).completion
            = Completion.returned s1 ∧ s1.ok = false)
    ∧ (∀ dest value s what,
        ex.run (QueueOp.fill dest value) status = (s, some (Exception.sycl what)) →
        ∃ s1, (fill ex dest value status).completion = Completion.returned s1
          ∧ s1.ok = false) := by
  refine ⟨?_, ?_, ?_, ?_, ?_⟩
  · intro type bufferSize what h
    exact ⟨convertSyclExceptionToStatus what status, by simp [allocate, h],
      Status.ok_add _ _⟩
  · intro type bufferSize buffer h
    simp [allocate, h]
  · intro dest desOffset src srcOffset count s what ht h
    exact ⟨convertSyclExceptionToStatus what s, by simp [copy, ht, submitCaught, h],
      Status.ok_add _ _⟩
  · intro dest desOffset src srcOffset count s what h
    exact ⟨convertSyclExceptionToStatus what s, by simp [copyFromHost, submitCaught, h],
      Status.ok_add _ _⟩
  · intro dest value s what h
    exact ⟨convertSyclExceptionToStatus what s, by simp [fill, submitCaught, h],
      Status.ok_add _ _⟩

theorem no_backend_fault_escapes_witness :
    Sample.faulty.allocate TypeId.float32 16
        = Except.error (Exception.sycl "out of device memory")
    ∧ (∃ s, (allocate Sample.faulty TypeId.float32 16 Status.success).completion
          = Completion.returned (UniversalBuffer.empty, s) ∧ s.ok = false)
    ∧ Sample.quiet.allocate TypeId.float32 16 = Except.ok ⟨some TypeId.float32, some 1⟩
    ∧ (allocate Sample.quiet TypeId.float32 16 Status.success).completion
        = Completion.returned (⟨some TypeId.float32, some 1⟩, Status.success) :=
  ⟨rfl,
   (no_backend_fault_escapes Sample.faulty Status.success).1 TypeId.float32 16
     "out of device memory" rfl,
   rfl,
   (no_backend_fault_escapes Sample.quiet Status.success).2.1 TypeId.float32 16
     ⟨some TypeId.float32, some 1⟩ rfl⟩

end daal.services.internal.sycl
